import Mathlib

/-!
Verification development for the outbound message relay core of the
DigiSocket library.  The definitions below are a shallow embedding of
`src/Socket/messages-send.ts`, `src/Signal/lid-mapping.ts` and the groups
socket source file (`extractGroupMetadata`), together with theorems that
settle the specification claims about them.  Collaborator functions that
live outside the provided sources (the `WABinary` JID helpers, the Signal
repository, the key store, the patch callback) are modelled as explicit
parameters or, where the spec pins their behaviour down, as definitions
modelled from the spec.
-/

set_option autoImplicit false
set_option linter.unusedVariables false

namespace DigiSocket

/-- Split a character list at every occurrence of `c`, keeping empty
segments; this mirrors the `split` used by the source's JID helpers. -/
def splitOnChar (c : Char) : List Char → List (List Char)
  | [] => [[]]
  | x :: rest =>
    match splitOnChar c rest with
    | [] => [[]]
    | s :: ss => if x = c then [] :: s :: ss else (x :: s) :: ss

/-- Parsed JID form, as in spec section 3: user, server, optional device. -/
structure FullJid where
  user : String
  server : String
  device : Option Nat
  deriving DecidableEq, Repr

/-- Numeric value of a decimal digit character, if it is one. -/
def digitVal? (c : Char) : Option Nat :=
  if c.toNat ≥ 48 ∧ c.toNat ≤ 57 then some (c.toNat - 48) else none

/-- Parse a non-empty all-digit character list as a natural number. -/
def digitsToNat? (cs : List Char) : Option Nat :=
  match cs with
  | [] => none
  | _ =>
    cs.foldl (fun acc c =>
      match acc, digitVal? c with
      | some n, some d => some (n * 10 + d)
      | _, _ => none) (some 0)

/-- Modelled from the spec: the `WABinary` helper `jidDecode` is not part
of the provided sources.  Spec section 3 and the glossary give the JID
grammar `user@server[:device]`; a JID carries a non-empty user and a
non-empty server, and the optional numeric device suffix. -/
def jidDecode (jid : String) : Option FullJid :=
  match splitOnChar '@' jid.data with
  | [u, rest] =>
    if u = [] then none
    else
      match splitOnChar ':' rest with
      | [s] => if s = [] then none else some ⟨String.mk u, String.mk s, none⟩
      | [s, d] =>
        if s = [] then none
        else
          match digitsToNat? d with
          | some n => some ⟨String.mk u, String.mk s, some n⟩
          | none => none
      | _ => none
  | _ => none

/-- Modelled from the spec: the `WABinary` helper `jidEncode`.  Encodes
`user@server[:device]`; the primary device `0` is written without a
suffix (a user-level JID), matching the device-0 handling the relay code
relies on when it pushes primary devices. -/
def jidEncode (user server : String) (device : Option Nat) : String :=
  user ++ "@" ++ server ++
    (match device with
      | some d => if d = 0 then "" else ":" ++ toString d
      | none => "")

/-- Modelled from the spec: a PN JID lives on server `s.whatsapp.net`. -/
def isPnUser (jid : String) : Bool :=
  match jidDecode jid with
  | some fj => fj.server = "s.whatsapp.net"
  | none => false

/-- Modelled from the spec: a LID JID lives on server `lid`. -/
def isLidUser (jid : String) : Bool :=
  match jidDecode jid with
  | some fj => fj.server = "lid"
  | none => false

/-- Modelled from the spec: a group JID lives on server `g.us`. -/
def isJidGroup (jid : String) : Bool :=
  match jidDecode jid with
  | some fj => fj.server = "g.us"
  | none => false

/-- Modelled from the spec: two JIDs denote the same user iff their user
components match. -/
def areJidsSameUser (a b : String) : Bool :=
  decide ((jidDecode a).map (fun fj => fj.user) = (jidDecode b).map (fun fj => fj.user))

/-- Modelled from the spec: normalisation strips the device component
(section 3: same user iff `(user, server)` match when normalized). -/
def jidNormalizedUser (jid : String) : String :=
  match jidDecode jid with
  | some fj => jidEncode fj.user fj.server none
  | none => ""

/-- JavaScript `a || b` on an optional string: empty strings are falsy. -/
def jsOr (a : Option String) (b : String) : String :=
  match a with
  | some s => if s = "" then b else s
  | none => b

/-- A well-formed user or server name: non-empty and free of the JID
separator characters. -/
def validName (u : String) : Prop :=
  u ≠ "" ∧ '@' ∉ u.data ∧ ':' ∉ u.data

instance validName.decPred : DecidablePred validName := fun u => by
  unfold validName
  infer_instance

/-! ### Binary nodes

The wire protocol's dynamic node trees (`{ tag, attrs, content }`, spec
section 9) with attribute lists behaving like JavaScript objects: one
entry per key, assignment updates in place, spread appends new keys. -/

mutual

inductive BinaryNode : Type where
  | node (tag : String) (attrs : List (String × String)) (content : BNContent) : BinaryNode

inductive BNContent : Type where
  | children : List BinaryNode → BNContent
  | bytes : List Nat → BNContent
  | text : String → BNContent
  | empty : BNContent

end

def BinaryNode.tag : BinaryNode → String
  | .node t _ _ => t

def BinaryNode.attrs : BinaryNode → List (String × String)
  | .node _ a _ => a

def BinaryNode.childNodes : BinaryNode → List BinaryNode
  | .node _ _ (.children cs) => cs
  | _ => []

/-- First-match lookup in an assoc list (JavaScript object read). -/
def lookupStr (l : List (String × String)) (k : String) : Option String :=
  (l.find? (fun p => p.1 == k)).map (fun p => p.2)

/-- JavaScript object read followed by a truthiness test: an absent key
and an empty string both count as missing. -/
def lookupTruthy (l : List (String × String)) (k : String) : Option String :=
  match lookupStr l k with
  | some v => if v == "" then none else some v
  | none => none

/-- JavaScript object assignment `o[k] = v`: update the key in place when
present, append it otherwise. -/
def setStr (l : List (String × String)) (k v : String) : List (String × String) :=
  if l.any (fun p => p.1 == k) then l.map (fun p => if p.1 == k then (k, v) else p)
  else l ++ [(k, v)]

/-- JavaScript object spread of `extra` over `base`: every key of
`extra` assigned over `base` in order. -/
def mergeAttrs (base extra : List (String × String)) : List (String × String) :=
  extra.foldl (fun acc p => setStr acc p.1 p.2) base

/-- Attribute read on a node. -/
def getAttr (n : BinaryNode) (k : String) : Option String :=
  lookupStr n.attrs k

def getBinaryNodeChild (n : BinaryNode) (tag : String) : Option BinaryNode :=
  n.childNodes.find? (fun c => c.tag == tag)

def getBinaryNodeChildren (n : Option BinaryNode) (tag : String) : List BinaryNode :=
  match n with
  | some nd => nd.childNodes.filter (fun c => c.tag == tag)
  | none => []

def getBinaryNodeChildString (n : BinaryNode) (tag : String) : Option String :=
  match getBinaryNodeChild n tag with
  | some (BinaryNode.node _ _ (BNContent.text s)) => some s
  | _ => none

/-! ### Receipts (`sendReceipt` in `messages-send.ts`) -/

/-- The receipt stanza `sendReceipt` would pass to `sendNode`, or the
error it throws before building one.  `now` stands for
`unixTimestampSeconds()`. -/
def sendReceipt (jid : String) (participant : Option String) (messageIds : List String)
    (rtype : String) (now : Nat) : Except String BinaryNode :=
  if messageIds.isEmpty then Except.error "missing ids in receipt"
  else
    let attrs0 : List (String × String) := [("id", messageIds.headD "")]
    let isReadReceipt := rtype == "read" || rtype == "read-self"
    let attrs1 := if isReadReceipt then setStr attrs0 "t" (toString now) else attrs0
    let attrs2 :=
      if rtype == "sender" && (isPnUser jid || isLidUser jid) then
        setStr (setStr attrs1 "recipient" jid) "to" (participant.getD "")
      else
        let a := setStr attrs1 "to" jid
        match participant with
        | some p => if p == "" then a else setStr a "participant" p
        | none => a
    let attrs3 := if rtype == "" then attrs2 else setStr attrs2 "type" rtype
    let remaining := messageIds.tail
    let content :=
      if remaining.isEmpty then BNContent.empty
      else BNContent.children [BinaryNode.node "list" []
        (BNContent.children (remaining.map (fun i => BinaryNode.node "item" [("id", i)] BNContent.empty)))]
    Except.ok (BinaryNode.node "receipt" attrs3 content)

/-! ### Group metadata extraction (`extractGroupMetadata` in the groups
socket source) -/

structure GroupParticipantRec where
  id : Option String
  jid : Option String
  phoneNumber : Option String
  lid : Option String
  admin : Option String
  deriving DecidableEq, Repr

structure GroupMetadataRec where
  id : String
  addressingMode : String
  subject : Option String
  size : Nat
  participants : List GroupParticipantRec
  ephemeralDuration : Option Nat
  memberAddMode : Bool
  deriving DecidableEq, Repr

/-- The per-participant record built by `extractGroupMetadata`:
resolve a phone-number JID for the participant, falling back to the LID,
and mirror it into both the `id` and `jid` fields. -/
def extractParticipantRec (groupId : String)
    (lidMappingCache : Option (List (String × List (String × String))))
    (attrsL : List (String × String)) : GroupParticipantRec :=
  let ajid := lookupStr attrsL "jid"
  let isLid := match ajid with | some a => isLidUser a | none => false
  let isPn := match ajid with | some a => isPnUser a | none => false
  let pair : Option String × Option String :=
    if isPn then (ajid, lookupStr attrsL "lid")
    else if isLid then
      match lookupTruthy attrsL "phone_number" with
      | some pn => (some (if isPnUser pn then pn else jidNormalizedUser pn), ajid)
      | none =>
        match lidMappingCache with
        | some cacheMap =>
          let storedMapping := (cacheMap.find? (fun p => p.1 == groupId)).map (fun p => p.2)
          let mappedPhone := storedMapping.bind (fun m => lookupTruthy m (ajid.getD ""))
          match mappedPhone with
          | some mp => if isPnUser mp then (some mp, ajid) else (ajid, ajid)
          | none => (ajid, ajid)
        | none => (ajid, ajid)
    else (ajid, none)
  { id := pair.1
    jid := pair.1
    phoneNumber := if pair.1 ≠ pair.2 then pair.1 else none
    lid := pair.2
    admin := lookupTruthy attrsL "type" }

/-- `extractGroupMetadata`: `none` models the source's non-null assertion
failing (no `<group>` child or no `id` attribute). -/
def extractGroupMetadata (result : BinaryNode)
    (lidMappingCache : Option (List (String × List (String × String)))) :
    Option GroupMetadataRec :=
  match getBinaryNodeChild result "group" with
  | none => none
  | some group =>
    let gattrs := group.attrs
    match lookupStr gattrs "id" with
    | none => none
    | some rawId =>
      let groupId := if '@' ∈ rawId.data then rawId else jidEncode rawId "g.us" none
      let eph := (getBinaryNodeChild group "ephemeral").bind (fun e => lookupStr e.attrs "expiration")
      some
        { id := groupId
          addressingMode := if lookupStr gattrs "addressing_mode" == some "lid" then "lid" else "pn"
          subject := lookupStr gattrs "subject"
          size :=
            match lookupTruthy gattrs "size" with
            | some s => (digitsToNat? s.data).getD 0
            | none => (getBinaryNodeChildren (some group) "participant").length
          participants := (getBinaryNodeChildren (some group) "participant").map
            (fun p => extractParticipantRec groupId lidMappingCache p.attrs)
          ephemeralDuration := eph.bind (fun e => digitsToNat? e.data)
          memberAddMode := getBinaryNodeChildString group "member_add_mode" == some "all_member_add" }

/-! ### The LID mapping store (`lid-mapping.ts`) -/

/-- State of `LIDMappingStore`: the LRU cache split into its `pn:` and
`lid:` keyed halves, and the keystore's `lid-mapping` namespace (whose
reverse entries are stored under `<lidUser>_reverse`). -/
structure LidState where
  cachePn : List (String × String)
  cacheLid : List (String × String)
  db : List (String × String)
  deriving DecidableEq, Repr

/-- Result of `storeLIDPNMappings`: the final state and the number of
invalid-pair warnings.  `abortedEarly` marks the bare `return` taken when
a JID fails to decode after the server-rule check, which drops the whole
batch. -/
inductive StoreOutcome where
  | completed (state : LidState) (warnings : Nat) : StoreOutcome
  | abortedEarly (state : LidState) (warnings : Nat) : StoreOutcome
  deriving DecidableEq, Repr

/-- The keystore transaction at the end of `storeLIDPNMappings`: write
both directions of every collected pair to the database and the cache. -/
def storeApply (s : LidState) (pairMap : List (String × String)) : LidState :=
  pairMap.foldl (fun st kv =>
    { st with
      db := setStr (setStr st.db kv.1 kv.2) (kv.2 ++ "_reverse") kv.1
      cachePn := setStr st.cachePn kv.1 kv.2
      cacheLid := setStr st.cacheLid kv.2 kv.1 }) s

/-- Outcome of validating one pair in `storeLIDPNMappings`: the pair is
invalid (warned and skipped), or processed into an updated state and
`pairMap`, or its decode fails and the bare `return` fires. -/
inductive StoreStepRes where
  | invalid : StoreStepRes
  | ok (s : LidState) (pairMap : List (String × String)) : StoreStepRes
  | abort : StoreStepRes
  deriving DecidableEq, Repr

/-- Validation of a single `(lid, pn)` pair: the server-rule check, the
decode assertions, and the existing-mapping check (cache first, then the
database, refreshing the cache on a database hit). -/
def storeStep (s : LidState) (pairMap : List (String × String))
    (pr : String × String) : StoreStepRes :=
  let (lid, pn) := pr
  if !((isLidUser lid && isPnUser pn) || (isPnUser lid && isLidUser pn)) then
    StoreStepRes.invalid
  else
    let lidJid := if isLidUser lid then lid else pn
    let pnJid := if isLidUser lid then pn else lid
    match jidDecode lidJid, jidDecode pnJid with
    | some lidDec, some pnDec =>
      let pnUser := pnDec.user
      let lidUser := lidDec.user
      let probe : Option String × LidState :=
        match lookupTruthy s.cachePn pnUser with
        | some v => (some v, s)
        | none =>
          match lookupTruthy s.db pnUser with
          | some v =>
            (some v,
              { s with
                cachePn := setStr s.cachePn pnUser v
                cacheLid := setStr s.cacheLid v pnUser })
          | none => (none, s)
      if probe.1 == some lidUser then StoreStepRes.ok probe.2 pairMap
      else StoreStepRes.ok probe.2 (setStr pairMap pnUser lidUser)
    | _, _ => StoreStepRes.abort

/-- One validation round of `storeLIDPNMappings` over the remaining
pairs, carrying the state (the cache may be refreshed from the database
during the existing-mapping check), the warning count and the collected
`pairMap`. -/
def storeGo (s : LidState) (w : Nat) (pairMap : List (String × String)) :
    List (String × String) → StoreOutcome
  | [] => StoreOutcome.completed (storeApply s pairMap) w
  | pr :: rest =>
    match storeStep s pairMap pr with
    | StoreStepRes.invalid => storeGo s (w + 1) pairMap rest
    | StoreStepRes.ok s2 pm2 => storeGo s2 w pm2 rest
    | StoreStepRes.abort => StoreOutcome.abortedEarly s w

/-- Add `k` further warnings to a store outcome. -/
def addWarn (k : Nat) : StoreOutcome → StoreOutcome
  | StoreOutcome.completed s w => StoreOutcome.completed s (w + k)
  | StoreOutcome.abortedEarly s w => StoreOutcome.abortedEarly s (w + k)

/-- `storeLIDPNMappings` over a batch of `(lid, pn)` pairs. -/
def storeLIDPNMappings (s : LidState) (pairs : List (String × String)) : StoreOutcome :=
  storeGo s 0 [] pairs

/-- `getLIDForPN`: user-level forward lookup, cache first, then the
database (refreshing the cache on a database hit). -/
def getLIDForPN (s : LidState) (pn : String) : Option String × LidState :=
  if !isPnUser pn then (none, s)
  else
    match jidDecode pn with
    | none => (none, s)
    | some dec =>
      let pnUser := dec.user
      match lookupTruthy s.cachePn pnUser with
      | some lidUser => (some (lidUser ++ "@lid"), s)
      | none =>
        match lookupTruthy s.db pnUser with
        | some lidUser =>
          (some (lidUser ++ "@lid"),
            { s with
              cachePn := setStr s.cachePn pnUser lidUser
              cacheLid := setStr s.cacheLid lidUser pnUser })
        | none => (none, s)

/-- `getPNForLID`: user-level reverse lookup, cache first, then the
database's `_reverse` entry (refreshing the cache on a database hit). -/
def getPNForLID (s : LidState) (lid : String) : Option String × LidState :=
  if !isLidUser lid then (none, s)
  else
    match jidDecode lid with
    | none => (none, s)
    | some dec =>
      let lidUser := dec.user
      match lookupTruthy s.cacheLid lidUser with
      | some pnUser => (some (pnUser ++ "@s.whatsapp.net"), s)
      | none =>
        match lookupTruthy s.db (lidUser ++ "_reverse") with
        | some pnUser =>
          (some (pnUser ++ "@s.whatsapp.net"),
            { s with cacheLid := setStr s.cacheLid lidUser pnUser })
        | none => (none, s)

/-! ### Device resolution (`getUSyncDevices` in `messages-send.ts`) -/

/-- Device info with wire JID (the `DeviceWithJid` type of the source).
The device number is optional because `jidDecode` may yield no device. -/
structure DeviceWithJid where
  user : String
  device : Option Nat
  jid : String
  deriving DecidableEq, Repr

/-- One entry of the server's USync device list after `extractDeviceJids`
(a collaborator outside the provided sources). -/
structure USyncItem where
  user : String
  server : String
  device : Nat
  originalJid : Option String
  deriving DecidableEq, Repr

/-- Wire JID of an extracted USync item: rebuilt from `originalJid` when
present (its user before any separator, its server after the `@`),
otherwise encoded from the extracted fields. -/
def usyncFinalJid (it : USyncItem) : String :=
  match it.originalJid with
  | some oj =>
    let beforeAt := (splitOnChar '@' oj.data).headD []
    let afterAt := ((splitOnChar '@' oj.data).drop 1).headD []
    let userPart := (splitOnChar ':' beforeAt).headD []
    jidEncode (String.mk userPart) (String.mk afterAt) (some it.device)
  | none => jidEncode it.user it.server (some it.device)

/-- Classification pass of `getUSyncDevices`: inputs carrying an explicit
device number (and a truthy user) are emitted verbatim into the result
list; the rest are kept (LID JIDs as given, others normalized) together
with their user for the cache pass. -/
def usyncClassifyStep (acc : List DeviceWithJid × List (String × Option String)) (jid : String) :
    List DeviceWithJid × List (String × Option String) :=
  let decoded := jidDecode jid
  let user := decoded.map FullJid.user
  let device := decoded.bind FullJid.device
  let isExplicitDevice := device.isSome
  if isExplicitDevice && (match user with | some u => u != "" | none => false) then
    (acc.1 ++ [⟨user.getD "", device, jid⟩], acc.2)
  else
    (acc.1, acc.2 ++ [(if isLidUser jid then jid else jidNormalizedUser jid, user)])

def usyncClassify (jids : List String) : List DeviceWithJid × List (String × Option String) :=
  jids.foldl usyncClassifyStep ([], [])

/-- Cache pass of `getUSyncDevices`: cache hits append their device
lists, misses queue the JID for the USync fetch. -/
def usyncCacheScan (useCache : Bool) (cacheGet : String → Option (List DeviceWithJid))
    (entries : List (String × Option String)) : List DeviceWithJid × List String :=
  entries.foldl (fun acc e =>
    if useCache then
      match e.2.bind cacheGet with
      | some devices => (acc.1 ++ devices, acc.2)
      | none => (acc.1, acc.2 ++ [e.1])
    else (acc.1, acc.2 ++ [e.1])) ([], [])

/-- `getUSyncDevices`: returns the device list and the JIDs that were
sent to the USync query (empty when everything was explicit or cached).
`usyncExtract` stands for the extraction of the server's response for
the queried JIDs (`executeUSyncQuery` plus `extractDeviceJids`, both
collaborators); `ignoreZeroDevices` is consumed by that collaborator. -/
def getUSyncDevices (useCache : Bool) (cacheGet : String → Option (List DeviceWithJid))
    (usyncExtract : List String → List USyncItem) (ignoreZeroDevices : Bool)
    (jids : List String) : List DeviceWithJid × List String :=
  let _ := ignoreZeroDevices
  let cls := usyncClassify jids
  let scan := usyncCacheScan useCache cacheGet cls.2
  let toFetch := scan.2
  if toFetch.isEmpty then (cls.1 ++ scan.1, toFetch)
  else
    let extracted := usyncExtract toFetch
    (cls.1 ++ scan.1 ++
      extracted.map (fun it => (⟨it.user, some it.device, usyncFinalJid it⟩ : DeviceWithJid)),
      toFetch)

/-! ### Message shape helpers (`messages-send.ts`) -/

inductive CipherType where
  | msg
  | pkmsg
  deriving DecidableEq, Repr

def CipherType.str : CipherType → String
  | .msg => "msg"
  | .pkmsg => "pkmsg"

structure CipherPair where
  ctype : CipherType
  ciphertext : List Nat
  deriving DecidableEq, Repr

structure GroupCipher where
  ciphertext : List Nat
  senderKeyDistributionMessage : List Nat
  deriving DecidableEq, Repr

/-- The fields of `proto.IMessage` that the relay path inspects.
`videoMessage` carries `gifPlayback`, `audioMessage` carries `ptt`,
`interactiveMessage` carries its native-flow button names, and
`pinInChat` stands for `normalizeMessageContent(message)?.pinInChatMessage`. -/
structure IMessage where
  pollCreationMessage : Bool := false
  pollCreationMessageV2 : Bool := false
  pollCreationMessageV3 : Bool := false
  eventMessage : Bool := false
  imageMessage : Bool := false
  videoMessage : Option Bool := none
  audioMessage : Option Bool := none
  contactMessage : Bool := false
  documentMessage : Bool := false
  contactsArrayMessage : Bool := false
  liveLocationMessage : Bool := false
  stickerMessage : Bool := false
  listMessage : Bool := false
  listResponseMessage : Bool := false
  buttonsResponseMessage : Bool := false
  orderMessage : Bool := false
  productMessage : Bool := false
  interactiveResponseMessage : Bool := false
  groupInviteMessage : Bool := false
  buttonsMessage : Bool := false
  templateMessage : Bool := false
  interactiveMessage : Option (List String) := none
  pinInChat : Bool := false
  deriving DecidableEq, Repr

def getMessageType (m : IMessage) : String :=
  if m.pollCreationMessage || m.pollCreationMessageV2 || m.pollCreationMessageV3 then "poll"
  else if m.eventMessage then "event"
  else "text"

def getMediaType (m : IMessage) : String :=
  if m.imageMessage then "image"
  else
    match m.videoMessage with
    | some gif => if gif then "gif" else "video"
    | none =>
      match m.audioMessage with
      | some ptt => if ptt then "ptt" else "audio"
      | none =>
        if m.contactMessage then "vcard"
        else if m.documentMessage then "document"
        else if m.contactsArrayMessage then "contact_array"
        else if m.liveLocationMessage then "livelocation"
        else if m.stickerMessage then "sticker"
        else if m.listMessage then "list"
        else if m.listResponseMessage then "list_response"
        else if m.buttonsResponseMessage then "buttons_response"
        else if m.orderMessage then "order"
        else if m.productMessage then "product"
        else if m.interactiveResponseMessage then "native_flow_response"
        else if m.groupInviteMessage then "url"
        else ""

def getButtonType (m : IMessage) : Option String :=
  if m.buttonsMessage then some "buttons"
  else if m.buttonsResponseMessage then some "buttons_response"
  else if m.interactiveResponseMessage then some "interactive_response"
  else if m.listMessage then some "list"
  else if m.listResponseMessage then some "list_response"
  else if m.interactiveMessage.isSome then some "interactive"
  else none

def getButtonArgs (m : IMessage) : List (String × String) :=
  if m.templateMessage then []
  else if m.listMessage then [("v", "2"), ("type", "product_list")]
  else
    match m.interactiveMessage with
    | some buttons =>
      if buttons.contains "payment_info" then [("v", "1"), ("type", "native_flow")]
      else [("type", "native_flow")]
    | none => []

def getButtonContent (m : IMessage) : List BinaryNode :=
  if m.templateMessage then []
  else
    match m.interactiveMessage with
    | some buttons =>
      if buttons.contains "payment_info" then
        [BinaryNode.node "native_flow" [("name", "payment_info")] BNContent.empty]
      else
        [BinaryNode.node "native_flow" [("v", "2"), ("name", "mixed")] BNContent.empty]
    | none => []

/-! ### The relay (`relayMessage` in `messages-send.ts`)

Collaborators reached over the network or through the keystore are
environment parameters; the relay itself is the pure stanza assembly
performed inside the keystore transaction, ending at `sendNode`. -/

structure GroupParticipantEntry where
  id : String
  lid : Option String
  deriving DecidableEq, Repr

structure GroupData where
  addressingMode : Option String
  participants : List GroupParticipantEntry
  ephemeralDuration : Option Nat
  deriving DecidableEq, Repr

structure RetryParticipant where
  jid : String
  count : Nat
  deriving DecidableEq, Repr

/-- Environment of one `relayMessage` call: credentials, configuration
and the outcomes of the collaborator calls it performs. -/
structure RelayEnv where
  meId : String
  meLid : Option String
  compatV6GroupSend : Bool
  patch : IMessage → IMessage
  encodeWA : IMessage → List Nat
  encodeNewsletter : IMessage → List Nat
  mkDeviceSentMessage : String → IMessage → IMessage
  mkSenderKeyMessage : String → List Nat → IMessage
  encryptMessage : String → List Nat → Option CipherPair
  encryptGroupMessage : String → List Nat → String → GroupCipher
  lidsForPNs : List String → List (String × String)
  deviceIdentityBytes : List Nat
  groupData : Option GroupData
  senderKeyMemory : List (String × Bool)
  cacheGet : String → Option (List DeviceWithJid)
  usyncExtract : List String → List USyncItem

/-- Options of one `relayMessage` call (`MessageRelayOptions` with the
message id already generated). -/
structure RelayArgs where
  messageId : String
  participant : Option RetryParticipant
  additionalAttributes : List (String × String)
  additionalNodes : List BinaryNode
  statusJidList : Option (List String)
  useUserDevicesCache : Bool

/-- Result of a successful `relayMessage` call: the stanza handed to
`sendNode`, the value written to `sender-key-memory` (if any), and an
audit list of the pairwise encryptions performed. -/
structure RelayOut where
  stanza : BinaryNode
  senderKeyStore : Option (List (String × Bool))
  pairwise : List (String × CipherType)

/-- Message selection inside `createParticipantNodes`: own non-sender
devices receive the DSM when one is supplied. -/
def msgToEncryptFor (env : RelayEnv) (patched : IMessage) (dsm : Option IMessage)
    (jid : String) : IMessage :=
  match dsm with
  | none => patched
  | some dsmMsg =>
    let targetUser := ((jidDecode jid).map FullJid.user).getD ""
    let ownPnUser := ((jidDecode env.meId).map FullJid.user).getD ""
    let ownLidUser := env.meLid.bind (fun l => (jidDecode l).map FullJid.user)
    let isOwnUser := (targetUser == ownPnUser) ||
      (match ownLidUser with | some u => u != "" && targetUser == u | none => false)
    let isExactSenderDevice := (jid == env.meId) ||
      (match env.meLid with | some l => l != "" && jid == l | none => false)
    if isOwnUser && !isExactSenderDevice then dsmMsg else patched

/-- The `<to>` envelope holding one pairwise `<enc>`. -/
def mkParticipantToNode (jid : String) (enc : CipherPair)
    (extraAttrs : List (String × String)) : BinaryNode :=
  BinaryNode.node "to" [("jid", jid)]
    (BNContent.children [BinaryNode.node "enc"
      (mergeAttrs [("v", "2"), ("type", enc.ctype.str)] extraAttrs)
      (BNContent.bytes enc.ciphertext)])

/-- Recipient loop of `createParticipantNodes`: `none` models a pairwise
encryption failure escaping in strict mode; in V6-compat mode the failed
device is dropped from the fan-out. -/
def cpnGo (env : RelayEnv) (patched : IMessage) (dsm : Option IMessage)
    (extraAttrs : List (String × String)) :
    List String → Option (List BinaryNode × Bool × List (String × CipherType))
  | [] => some ([], false, [])
  | jid :: rest =>
    match cpnGo env patched dsm extraAttrs rest with
    | none => none
    | some (ns, flag, aud) =>
      if jid == "" then some (ns, flag, aud)
      else
        let bytes := env.encodeWA (msgToEncryptFor env patched dsm jid)
        match env.encryptMessage jid bytes with
        | some enc =>
          some (mkParticipantToNode jid enc extraAttrs :: ns,
            flag || (enc.ctype == CipherType.pkmsg),
            (jid, enc.ctype) :: aud)
        | none => if env.compatV6GroupSend then some (ns, flag, aud) else none

/-- `createParticipantNodes`: the `<to>` nodes, whether any encryption
produced a `pkmsg`, and the audit of performed encryptions. -/
def createParticipantNodes (env : RelayEnv) (recipientJids : List String)
    (message : IMessage) (extraAttrs : List (String × String)) (dsm : Option IMessage) :
    Option (List BinaryNode × Bool × List (String × CipherType)) :=
  if recipientJids.isEmpty then some ([], false, [])
  else cpnGo env (env.patch message) dsm extraAttrs recipientJids

/-- Sender-key recipient id of a device, as computed in the group branch
of `relayMessage`. -/
def senderIdOf (d : DeviceWithJid) : String :=
  let server := jsOr ((jidDecode d.jid).map FullJid.server) "lid"
  jidEncode d.user server d.device

/-- JavaScript object assignment on a boolean-valued map. -/
def setBool (l : List (String × Bool)) (k : String) (v : Bool) : List (String × Bool) :=
  if l.any (fun p => p.1 == k) then l.map (fun p => if p.1 == k then (k, v) else p)
  else l ++ [(k, v)]

/-- The sender-key loop of `relayMessage`: every device is pushed onto
`senderKeyJids` and marked in the sender-key map. -/
def computeSenderKey (devices : List DeviceWithJid) (m : List (String × Bool)) :
    List String × List (String × Bool) :=
  devices.foldl (fun acc d =>
    let sid := senderIdOf d
    (acc.1 ++ [sid], setBool acc.2 sid true)) ([], m)

/-- Participant list of a group send: `lid || id` per participant,
PN entries translated through the LID mapping when the group is
LID-addressed, and the status JID list appended for status sends. -/
def groupParticipantsList (env : RelayEnv) (args : RelayArgs) (isStatus : Bool) : List String :=
  let base :=
    match env.groupData with
    | some gd => if !isStatus then gd.participants.map (fun p => jsOr p.lid p.id) else []
    | none => []
  let converted :=
    if !isStatus && ((env.groupData.bind GroupData.addressingMode) == some "lid") then
      let pnParticipants := base.filter (fun p => isPnUser p)
      if !pnParticipants.isEmpty then
        let lidMappings := env.lidsForPNs pnParticipants
        if !lidMappings.isEmpty then base.map (fun p => jsOr (lookupStr lidMappings p) p)
        else base
      else base
    else base
  if isStatus then
    match args.statusJidList with
    | some l => converted ++ l
    | none => converted
  else converted

/-- Device resolution of a group send without a retry participant: the
USync devices of the participant list, plus the sender's own primary
device when the resolver did not return it. -/
def relayGroupDevices (env : RelayEnv) (args : RelayArgs) (isStatus : Bool) :
    List DeviceWithJid :=
  let additionalDevices :=
    (getUSyncDevices args.useUserDevicesCache env.cacheGet env.usyncExtract false
      (groupParticipantsList env args isStatus)).1
  let isLidGroup := (env.groupData.bind GroupData.addressingMode) == some "lid"
  let myJid := if isLidGroup then env.meLid else some env.meId
  let myUser := myJid.bind (fun j => (jidDecode j).map FullJid.user)
  let mephone := additionalDevices.any (fun d =>
    (match myUser with | some mu => d.user == mu | none => false) && (d.device == some 0))
  match myUser, myJid with
  | some mu, some mj =>
    if !mephone && mu != "" && mj != "" then
      additionalDevices ++ [⟨mu, some 0, jidNormalizedUser mj⟩]
    else additionalDevices
  | _, _ => additionalDevices

/-- The extra `<enc>` attributes of one relay call: the media type when
the message carries media, and `decrypt-fail=hide` for pin-in-chat. -/
def relayExtraAttrs (message : IMessage) : List (String × String) :=
  let mt := getMediaType message
  let e1 : List (String × String) := if mt != "" then [("mediatype", mt)] else []
  if message.pinInChat then mergeAttrs e1 [("decrypt-fail", "hide")] else e1

/-- Peer-category lift: `participants[0]?.content?.[0]`, the inner
`<enc>` pushed directly when the category is `peer`. -/
def peerLift (participantsNodes : List BinaryNode) : List BinaryNode :=
  match participantsNodes with
  | pn :: _ =>
    match pn.childNodes with
    | c :: _ => [c]
    | [] => []
  | [] => []

/-- The participants wrapper segment of the stanza content: nothing when
no participant nodes were built, the inline `<enc>` for peer category,
and the `<participants>` wrapper otherwise. -/
def wrappedParticipants (additionalAttributes : List (String × String))
    (participantsNodes : List BinaryNode) : List BinaryNode :=
  if participantsNodes.isEmpty then []
  else if lookupStr additionalAttributes "category" == some "peer" then
    peerLift participantsNodes
  else [BinaryNode.node "participants" [] (BNContent.children participantsNodes)]

/-- The `<device-identity>` segment of the stanza content. -/
def identitySeg (env : RelayEnv) (shouldIncludeDeviceIdentity : Bool) : List BinaryNode :=
  if shouldIncludeDeviceIdentity then
    [BinaryNode.node "device-identity" [] (BNContent.bytes env.deviceIdentityBytes)]
  else []

/-- The `<biz>` business-node segment of the stanza content. -/
def bizSeg (message : IMessage) : List BinaryNode :=
  match getButtonType message with
  | some bt =>
    [BinaryNode.node "biz" [] (BNContent.children
      [BinaryNode.node bt (getButtonArgs message)
        (if bt != "list" then BNContent.children (getButtonContent message)
         else BNContent.empty)])]
  | none => []

/-- Stanza attributes: the id / destination / type spread with the
caller's additional attributes, then the retry-participant routing
override. -/
def relayStanzaAttrs (env : RelayEnv) (message : IMessage) (destinationJid : String)
    (participant : Option RetryParticipant) (msgId : String)
    (additionalAttributes : List (String × String)) : List (String × String) :=
  let attrs₀ := mergeAttrs
    [("id", msgId), ("to", destinationJid), ("type", getMessageType message)]
    additionalAttributes
  match participant with
  | some p =>
    if isJidGroup destinationJid then
      setStr (setStr attrs₀ "to" destinationJid) "participant" p.jid
    else if areJidsSameUser p.jid env.meId then
      setStr (setStr attrs₀ "to" p.jid) "recipient" destinationJid
    else setStr attrs₀ "to" p.jid
  | none => setStr attrs₀ "to" destinationJid

/-- Final stanza assembly shared by the group and direct branches:
participants wrapper (or peer inline `<enc>`), routing attributes with
the retry-participant override, then device identity, business node and
caller-supplied additional nodes. -/
def finishStanza (env : RelayEnv) (message : IMessage) (destinationJid : String)
    (participant : Option RetryParticipant) (msgId : String)
    (additionalAttributes : List (String × String)) (additionalNodes : List BinaryNode)
    (encContent : List BinaryNode) (participantsNodes : List BinaryNode)
    (shouldIncludeDeviceIdentity : Bool) : BinaryNode :=
  BinaryNode.node "message"
    (relayStanzaAttrs env message destinationJid participant msgId additionalAttributes)
    (BNContent.children
      (encContent ++ wrappedParticipants additionalAttributes participantsNodes ++
        identitySeg env shouldIncludeDeviceIdentity ++ bizSeg message ++ additionalNodes))

/-- The sender-key-memory in scope for one group send: the stored map
when there is no retry participant and this is not a status send. -/
def groupSenderKeyMap0 (env : RelayEnv) (args : RelayArgs) (isStatus : Bool) :
    List (String × Bool) :=
  if args.participant.isNone && !isStatus then env.senderKeyMemory else []

/-- The devices of one group send: the retry participant alone, or the
resolved participant devices. -/
def groupDevicesSel (env : RelayEnv) (args : RelayArgs) (isStatus : Bool)
    (devices0 : List DeviceWithJid) : List DeviceWithJid :=
  match args.participant with
  | some _ => devices0
  | none => relayGroupDevices env args isStatus

/-- The additional attributes of a group stanza: `addressing_mode` for
non-status sends without a retry participant, then `expiration` for
ephemeral groups. -/
def groupAttrs (env : RelayEnv) (args : RelayArgs) (isStatus : Bool)
    (addAttrs0 : List (String × String)) : List (String × String) :=
  let a1 :=
    match args.participant with
    | none =>
      if !isStatus then
        mergeAttrs addAttrs0
          [("addressing_mode", jsOr (env.groupData.bind GroupData.addressingMode) "pn")]
      else addAttrs0
    | some _ => addAttrs0
  match env.groupData.bind GroupData.ephemeralDuration with
  | some e => if e > 0 then mergeAttrs a1 [("expiration", toString e)] else a1
  | none => a1

/-- The encoded plaintext of a group send. -/
def groupBytes (env : RelayEnv) (message : IMessage) : List Nat :=
  env.encodeWA (env.patch message)

/-- The own identity used for group encryption: the LID for a
LID-addressed group when one is known. -/
def groupMeIdSel (env : RelayEnv) : String :=
  match env.meLid with
  | some l =>
    if ((env.groupData.bind GroupData.addressingMode) == some "lid") && l != "" then l
    else env.meId
  | none => env.meId

/-- The group ciphertext and SKDM of one group send. -/
def groupCipherOf (env : RelayEnv) (message : IMessage) (destinationJid : String) :
    GroupCipher :=
  env.encryptGroupMessage destinationJid (groupBytes env message) (groupMeIdSel env)

/-- The sender-key recipient list and updated map of one group send. -/
def groupSenderKey (env : RelayEnv) (args : RelayArgs) (isStatus : Bool)
    (devices0 : List DeviceWithJid) : List String × List (String × Bool) :=
  computeSenderKey (groupDevicesSel env args isStatus devices0)
    (groupSenderKeyMap0 env args isStatus)

/-- The SKDM participant nodes of one group send. -/
def groupCpn (env : RelayEnv) (message : IMessage) (args : RelayArgs) (isStatus : Bool)
    (destinationJid : String) (devices0 : List DeviceWithJid)
    (extraAttrs : List (String × String)) :
    Option (List BinaryNode × Bool × List (String × CipherType)) :=
  if (groupSenderKey env args isStatus devices0).1.isEmpty then some ([], false, [])
  else
    createParticipantNodes env (groupSenderKey env args isStatus devices0).1
      (env.mkSenderKeyMessage destinationJid
        (groupCipherOf env message destinationJid).senderKeyDistributionMessage)
      extraAttrs none

/-- The group / status branch of `relayMessage` after metadata and
sender-key-memory resolution. -/
def relayGroupBranch (env : RelayEnv) (jid : String) (message : IMessage) (args : RelayArgs)
    (isStatus : Bool) (destinationJid : String)
    (devices0 : List DeviceWithJid) (additionalAttributes₀ : List (String × String))
    (extraAttrs : List (String × String)) : Option RelayOut :=
  (groupCpn env message args isStatus destinationJid devices0 extraAttrs).bind
    (fun trip =>
      match args.participant with
      | some p =>
        (env.encryptMessage p.jid (groupBytes env message)).map (fun enc =>
          { stanza := finishStanza env message destinationJid args.participant args.messageId
              (groupAttrs env args isStatus additionalAttributes₀) args.additionalNodes
              [BinaryNode.node "enc"
                [("v", "2"), ("type", enc.ctype.str), ("count", toString p.count)]
                (BNContent.bytes enc.ciphertext)]
              trip.1 (args.participant.isSome || trip.2.1)
            senderKeyStore := none
            pairwise := trip.2.2 ++ [(p.jid, enc.ctype)] })
      | none =>
        some
          { stanza := finishStanza env message destinationJid args.participant args.messageId
              (groupAttrs env args isStatus additionalAttributes₀) args.additionalNodes
              [BinaryNode.node "enc" (mergeAttrs [("v", "2"), ("type", "skmsg")] extraAttrs)
                (BNContent.bytes (groupCipherOf env message destinationJid).ciphertext)]
              trip.1 (args.participant.isSome || trip.2.1)
            senderKeyStore := some (groupSenderKey env args isStatus devices0).2
            pairwise := trip.2.2 })

/-- The sender's LID when it is set and truthy. -/
def meLidTruthy (env : RelayEnv) : Option String :=
  match env.meLid with
  | some l => if l != "" then some l else none
  | none => none

/-- The own identity matched to the conversation context: the LID for a
`lid` conversation when one is known. -/
def directOwnId (env : RelayEnv) (isLid : Bool) : String :=
  match meLidTruthy env with
  | some l => if isLid then l else env.meId
  | none => env.meId

/-- Device enumeration of a direct send without a retry participant: the
placeholder primary devices, then (outside peer category) the cleared
list re-enumerated through USync for the sender identity and the peer. -/
def directDevices (env : RelayEnv) (jid : String) (args : RelayArgs) (isLid : Bool)
    (user ownUser : String) (devices0 : List DeviceWithJid)
    (addAttrs0 : List (String × String)) : Option (List DeviceWithJid) :=
  match args.participant with
  | some _ => some devices0
  | none =>
    let targetUserServer := if isLid then "lid" else "s.whatsapp.net"
    let d1 := devices0 ++ [⟨user, some 0, jidEncode user targetUserServer (some 0)⟩]
    let d2 : Option (List DeviceWithJid) :=
      if user != ownUser then
        let ownUserServer := if isLid then "lid" else "s.whatsapp.net"
        let ownUserForAddressing : Option String :=
          match meLidTruthy env with
          | some l =>
            if isLid then (jidDecode l).map FullJid.user
            else (jidDecode env.meId).map FullJid.user
          | none => (jidDecode env.meId).map FullJid.user
        match ownUserForAddressing with
        | some oua => some (d1 ++ [⟨oua, some 0, jidEncode oua ownUserServer (some 0)⟩])
        | none => none
      else some d1
    match d2 with
    | none => none
    | some d2v =>
      if lookupStr addAttrs0 "category" != some "peer" then
        let senderIdentity :=
          if isLid && (meLidTruthy env).isSome then
            jidEncode (((meLidTruthy env).bind (fun l => (jidDecode l).map FullJid.user)).getD "")
              "lid" none
          else
            jidEncode (((jidDecode env.meId).map FullJid.user).getD "")
              "s.whatsapp.net" none
        some (getUSyncDevices true env.cacheGet env.usyncExtract false
          [senderIdentity, jid]).1
      else some d2v

/-- The own LID user for the recipient split (`none` when the LID decode
assertion would throw). -/
def directMeLidUser (env : RelayEnv) : Option (Option String) :=
  match meLidTruthy env with
  | some l =>
    match jidDecode l with
    | some ld => some (some ld.user)
    | none => none
  | none => some none

/-- The recipient split of a direct send: every device except the exact
sender device, partitioned into own devices and the rest (me, other,
all). -/
def directSplit (env : RelayEnv) (mePnUser : String) (meLidUser : Option String)
    (devices : List DeviceWithJid) : List String × List String × List String :=
  devices.foldl (fun (acc : List String × List String × List String) d =>
    let isExact := (d.jid == env.meId) ||
      (match meLidTruthy env with | some l => d.jid == l | none => false)
    if isExact then acc
    else
      let isMe := (d.user == mePnUser) ||
        (match meLidUser with | some u => d.user == u | none => false)
      if isMe then (acc.1 ++ [d.jid], acc.2.1, acc.2.2 ++ [d.jid])
      else (acc.1, acc.2.1 ++ [d.jid], acc.2.2 ++ [d.jid])) ([], [], [])

/-- The direct (1:1 / peer) branch of `relayMessage`. -/
def relayDirectBranch (env : RelayEnv) (jid : String) (message : IMessage) (args : RelayArgs)
    (isLid : Bool) (user destinationJid : String) (meMsg : IMessage)
    (devices0 : List DeviceWithJid) (additionalAttributes₀ : List (String × String))
    (extraAttrs : List (String × String)) : Option RelayOut :=
  (jidDecode (directOwnId env isLid)).bind (fun ownDec =>
    (directDevices env jid args isLid user ownDec.user devices0 additionalAttributes₀).bind
      (fun devices =>
        (jidDecode env.meId).bind (fun meDec =>
          (directMeLidUser env).bind (fun meLidUser =>
            (createParticipantNodes env
              (directSplit env meDec.user meLidUser devices).1 meMsg extraAttrs none).bind
              (fun meTrip =>
                (createParticipantNodes env
                  (directSplit env meDec.user meLidUser devices).2.1 message extraAttrs
                  (some meMsg)).bind
                  (fun otherTrip =>
                    some
                      { stanza := finishStanza env message destinationJid args.participant
                          args.messageId additionalAttributes₀ args.additionalNodes []
                          (meTrip.1 ++ otherTrip.1)
                          (args.participant.isSome || meTrip.2.1 || otherTrip.2.1)
                        senderKeyStore := none
                        pairwise := meTrip.2.2 ++ otherTrip.2.2 }))))))

/-- The `device_fanout` marking added to the additional attributes when
an explicit retry participant targets a non-group destination. -/
def relayAdditionalAttributes (args : RelayArgs) (isGroup isStatus : Bool) :
    List (String × String) :=
  match args.participant with
  | some _ =>
    if !isGroup && !isStatus then
      mergeAttrs args.additionalAttributes [("device_fanout", "false")]
    else args.additionalAttributes
  | none => args.additionalAttributes

/-- The initial devices list: the decoded retry participant when one is
supplied (`none` models its non-null decode assertion failing). -/
def relayDevices0 (args : RelayArgs) : Option (List DeviceWithJid) :=
  match args.participant with
  | some p =>
    match jidDecode p.jid with
    | some pd => some [⟨pd.user, pd.device, p.jid⟩]
    | none => none
  | none => some []

/-- The newsletter short-circuit: a `<plaintext>` payload, no per-device
encryption. -/
def newsletterStanza (env : RelayEnv) (jid : String) (message : IMessage) (args : RelayArgs)
    (addAttrs0 : List (String × String)) : RelayOut :=
  { stanza := BinaryNode.node "message"
      (mergeAttrs [("to", jid), ("id", args.messageId), ("type", getMessageType message)]
        addAttrs0)
      (BNContent.children
        [BinaryNode.node "plaintext" [] (BNContent.bytes (env.encodeNewsletter (env.patch message)))])
    senderKeyStore := none
    pairwise := [] }

/-- `relayMessage`: dispatch on the destination kind and build the stanza
passed to `sendNode`.  `none` models the call failing (a non-null
assertion on a JID decode, or an encryption failure escaping in strict
mode). -/
def relayMessage (env : RelayEnv) (jid : String) (message : IMessage) (args : RelayArgs) :
    Option RelayOut :=
  match jidDecode jid with
  | none => none
  | some jdec =>
    let isGroup := jdec.server == "g.us"
    let isStatus := jid == "status@broadcast"
    let isLid := jdec.server == "lid"
    let isNewsletter := jdec.server == "newsletter"
    let destinationJid := if !isStatus then jid else "status@broadcast"
    let additionalAttributes₀ := relayAdditionalAttributes args isGroup isStatus
    match relayDevices0 args with
    | none => none
    | some devices0 =>
      if isNewsletter then some (newsletterStanza env jid message args additionalAttributes₀)
      else if isGroup || isStatus then
        relayGroupBranch env jid message args isStatus destinationJid devices0
          additionalAttributes₀ (relayExtraAttrs message)
      else
        relayDirectBranch env jid message args isLid jdec.user destinationJid
          (env.mkDeviceSentMessage destinationJid message) devices0
          additionalAttributes₀ (relayExtraAttrs message)

/-! ### Observations on stanzas, and concrete fixtures -/

/-- Whether a node is an `<enc type=skmsg>` node. -/
def skPred (c : BinaryNode) : Bool :=
  c.tag == "enc" && (getAttr c "type" == some "skmsg")

/-- Number of direct `<enc type=skmsg>` children of a stanza. -/
def skmsgEncCount (stanza : BinaryNode) : Nat :=
  (stanza.childNodes.filter skPred).length

/-- The `jid` attributes of the `<to>` nodes under the stanza's
`<participants>` wrappers. -/
def stanzaParticipantJids (stanza : BinaryNode) : List String :=
  ((stanza.childNodes.filter (fun c => c.tag == "participants")).flatMap
    BinaryNode.childNodes).filterMap
    (fun c => if c.tag == "to" then getAttr c "jid" else none)

/-- Every `<enc>` node of a stanza: the direct children plus those nested
in the `<to>` envelopes under `<participants>`. -/
def stanzaEncNodes (stanza : BinaryNode) : List BinaryNode :=
  stanza.childNodes.filter (fun c => c.tag == "enc") ++
    (((stanza.childNodes.filter (fun c => c.tag == "participants")).flatMap
      BinaryNode.childNodes).flatMap
      (fun t => t.childNodes.filter (fun c => c.tag == "enc")))

/-- Whether the stanza carries a `<device-identity>` child. -/
def hasDeviceIdentity (stanza : BinaryNode) : Bool :=
  stanza.childNodes.any (fun c => c.tag == "device-identity")

/-- The server-rule check of `storeLIDPNMappings` on one pair. -/
def validMappingPair (pr : String × String) : Bool :=
  (isLidUser pr.1 && isPnUser pr.2) || (isPnUser pr.1 && isLidUser pr.2)

/-- The explicit-device test of `getUSyncDevices` on one input JID. -/
def usyncExplicitInput (jid : String) : Bool :=
  ((jidDecode jid).bind FullJid.device).isSome &&
    (match (jidDecode jid).map FullJid.user with | some u => u != "" | none => false)

/-- A placeholder relay result used when reading back concrete runs. -/
def emptyRelayOut : RelayOut :=
  { stanza := BinaryNode.node "" [] BNContent.empty, senderKeyStore := none, pairwise := [] }

/-- A concrete relay environment used by the concrete runs below: the
sender is PN user `100` device `1` with LID user `900`, the peer is PN
user `200` with devices `0` and `1`, and every collaborator call
succeeds. -/
def baseEnv : RelayEnv where
  meId := "100@s.whatsapp.net:1"
  meLid := some "900@lid:1"
  compatV6GroupSend := true
  patch := fun m => m
  encodeWA := fun _ => [1]
  encodeNewsletter := fun _ => [2]
  mkDeviceSentMessage := fun _ m => m
  mkSenderKeyMessage := fun _ _ => {}
  encryptMessage := fun _ _ => some ⟨CipherType.msg, [3]⟩
  encryptGroupMessage := fun _ _ _ => ⟨[4], [5]⟩
  lidsForPNs := fun _ => []
  deviceIdentityBytes := [9]
  groupData := some ⟨some "pn", [⟨"200@s.whatsapp.net", none⟩], none⟩
  senderKeyMemory := []
  cacheGet := fun u =>
    if u == "200" then
      some [⟨"200", some 0, "200@s.whatsapp.net"⟩, ⟨"200", some 1, "200@s.whatsapp.net:1"⟩]
    else if u == "100" then
      some [⟨"100", some 0, "100@s.whatsapp.net"⟩, ⟨"100", some 1, "100@s.whatsapp.net:1"⟩]
    else none
  usyncExtract := fun _ => []

/-- Concrete relay options without a retry participant. -/
def baseArgs : RelayArgs where
  messageId := "M1"
  participant := none
  additionalAttributes := []
  additionalNodes := []
  statusJidList := none
  useUserDevicesCache := true

/-- Concrete retry options towards a device of the peer (used against a
group destination). -/
def retryArgsGroup : RelayArgs :=
  { baseArgs with participant := some ⟨"200@s.whatsapp.net:1", 2⟩ }

/-- Concrete retry options towards the peer (used against a direct
destination). -/
def retryArgsDirect : RelayArgs :=
  { baseArgs with participant := some ⟨"200@s.whatsapp.net", 2⟩ }

/-- A strict-mode environment whose sender-key-memory already holds the
peer's primary device. -/
def c1Env : RelayEnv :=
  { baseEnv with
    compatV6GroupSend := false
    senderKeyMemory := [("200@s.whatsapp.net", true)] }

/-- Read a concrete relay result back, with an inert placeholder for the
impossible failure case. -/
def relayOutOrEmpty (o : Option RelayOut) : RelayOut := o.getD emptyRelayOut

/-- The concrete group-send result used by witnesses. -/
def c2OutW : RelayOut := relayOutOrEmpty (relayMessage baseEnv "g1@g.us" {} baseArgs)

/-- The concrete strict-mode group-send result used by the C1 witness. -/
def c1OutW : RelayOut := relayOutOrEmpty (relayMessage c1Env "g1@g.us" {} baseArgs)

/-- An environment whose pairwise encryption always yields an initial
`pkmsg` (fresh sessions everywhere). -/
def c3Env : RelayEnv :=
  { baseEnv with encryptMessage := fun _ _ => some ⟨CipherType.pkmsg, [3]⟩ }

/-- The concrete fresh-session direct-send result used by the C3
witness. -/
def c3OutW : RelayOut :=
  relayOutOrEmpty (relayMessage c3Env "200@s.whatsapp.net" {} baseArgs)

/-- The concrete direct-send result used by the C4 witness. -/
def c4OutW : RelayOut :=
  relayOutOrEmpty (relayMessage baseEnv "200@s.whatsapp.net" {} baseArgs)

/-- The concrete group-retry result used by the C5 witness. -/
def c5OutW : RelayOut :=
  relayOutOrEmpty (relayMessage baseEnv "g1@g.us" {} retryArgsGroup)

/-- A concrete group metadata response node: one LID participant whose
phone number is provided by the server. -/
def c9Node : BinaryNode :=
  BinaryNode.node "result" [] (BNContent.children
    [BinaryNode.node "group"
      [("id", "g1@g.us"), ("addressing_mode", "lid"), ("subject", "s"), ("creation", "1")]
      (BNContent.children
        [BinaryNode.node "participant"
          [("jid", "5@lid"), ("phone_number", "6@s.whatsapp.net")] BNContent.empty,
         BinaryNode.node "participant" [("jid", "7@lid")] BNContent.empty])])

def c9MetaDefault : GroupMetadataRec :=
  { id := "", addressingMode := "", subject := none, size := 0, participants := [],
    ephemeralDuration := none, memberAddMode := false }

def c9Meta : GroupMetadataRec := (extractGroupMetadata c9Node none).getD c9MetaDefault

def c9Part : GroupParticipantRec :=
  c9Meta.participants.headD ⟨none, none, none, none, none⟩

/-- A concrete mapping-store state holding the pair of PN user `77` and
LID user `55` in both directions. -/
def c6State : LidState :=
  { cachePn := [("77", "55")], cacheLid := [("55", "77")], db := [] }

/-- An always-missing user-devices cache. -/
def c8CacheGet : String → Option (List DeviceWithJid) := fun _ => none

/-- An empty USync response. -/
def c8Extract : List String → List USyncItem := fun _ => []

/-! ## Supporting lemmas -/

theorem splitOnChar_ne_nil (c : Char) (xs : List Char) : splitOnChar c xs ≠ [] := by
  induction xs with
  | nil => simp [splitOnChar]
  | cons x rest ih =>
    simp only [splitOnChar]
    cases h : splitOnChar c rest with
    | nil => simp
    | cons s ss => by_cases hx : x = c <;> simp [hx]

theorem splitOnChar_not_mem (c : Char) (xs : List Char) (h : c ∉ xs) :
    splitOnChar c xs = [xs] := by
  induction xs with
  | nil => rfl
  | cons x rest ih =>
    have hx : x ≠ c := fun hc => h (hc ▸ List.mem_cons_self x rest)
    have hr : c ∉ rest := fun hc => h (List.mem_cons_of_mem x hc)
    simp only [splitOnChar, ih hr]
    simp [hx]

theorem splitOnChar_append (c : Char) (u v : List Char) (h : c ∉ u) :
    splitOnChar c (u ++ c :: v) = u :: splitOnChar c v := by
  induction u with
  | nil =>
    simp only [List.nil_append, splitOnChar]
    cases hs : splitOnChar c v with
    | nil => exact absurd hs (splitOnChar_ne_nil c v)
    | cons s ss => simp
  | cons x rest ih =>
    have hx : x ≠ c := fun hc => h (hc ▸ List.mem_cons_self x rest)
    have hr : c ∉ rest := fun hc => h (List.mem_cons_of_mem x hc)
    have ih2 : splitOnChar c (rest.append (c :: v)) = rest :: splitOnChar c v := ih hr
    simp only [List.cons_append, splitOnChar]
    rw [ih2]
    simp [hx]

theorem data_ne_nil_of_ne_empty (u : String) (h : u ≠ "") : u.data ≠ [] := by
  intro hnil
  apply h
  cases u
  simp_all

theorem jidEncode_none (u s : String) : jidEncode u s none = u ++ "@" ++ s := by
  simp [jidEncode]

theorem jidDecode_user_server (u s : String) (hu : validName u) (hs : validName s) :
    jidDecode (u ++ "@" ++ s) = some ⟨u, s, none⟩ := by
  obtain ⟨hu0, hu1, hu2⟩ := hu
  obtain ⟨hs0, hs1, hs2⟩ := hs
  have hdata : (u ++ "@" ++ s).data = u.data ++ '@' :: s.data := by
    simp [String.data_append]
  have hsplit : splitOnChar '@' (u.data ++ '@' :: s.data) = u.data :: splitOnChar '@' s.data :=
    splitOnChar_append _ _ _ hu1
  have hsv : splitOnChar '@' s.data = [s.data] := splitOnChar_not_mem _ _ hs1
  have hscol : splitOnChar ':' s.data = [s.data] := splitOnChar_not_mem _ _ hs2
  have hune : u.data ≠ [] := data_ne_nil_of_ne_empty u hu0
  have hsne : s.data ≠ [] := data_ne_nil_of_ne_empty s hs0
  simp [jidDecode, hdata, hsplit, hsv, hscol, hune, hsne]

theorem jidDecode_encode_none (u s : String) (hu : validName u) (hs : validName s) :
    jidDecode (jidEncode u s none) = some ⟨u, s, none⟩ := by
  rw [jidEncode_none]
  exact jidDecode_user_server u s hu hs

theorem setStr_nil (k v : String) : setStr [] k v = [(k, v)] := rfl

theorem setStr_cons_pos (p : String × String) (rest : List (String × String)) (k v : String)
    (hp : p.1 = k) :
    setStr (p :: rest) k v = (k, v) :: rest.map (fun q => if q.1 == k then (k, v) else q) := by
  unfold setStr
  rw [if_pos (by simp [hp])]
  simp [hp]

theorem setStr_cons_neg (p : String × String) (rest : List (String × String)) (k v : String)
    (hp : ¬p.1 = k) :
    setStr (p :: rest) k v = p :: setStr rest k v := by
  unfold setStr
  by_cases h : rest.any (fun q => q.1 == k)
  · rw [if_pos (by simp [h]), if_pos h]
    simp [hp]
  · rw [if_neg (by simp [hp, h]), if_neg h]
    simp

theorem lookupStr_nil (q : String) : lookupStr [] q = none := rfl

theorem lookupStr_cons_pos (p : String × String) (rest : List (String × String)) (q : String)
    (hp : p.1 = q) : lookupStr (p :: rest) q = some p.2 := by
  simp [lookupStr, List.find?_cons_of_pos, hp]

theorem lookupStr_cons_neg (p : String × String) (rest : List (String × String)) (q : String)
    (hp : ¬p.1 = q) : lookupStr (p :: rest) q = lookupStr rest q := by
  simp only [lookupStr]
  rw [List.find?_cons_of_neg _ (by simp [hp])]

theorem find?_map_setKey (l : List (String × String)) (k v q : String) (hq : q ≠ k) :
    lookupStr (l.map (fun p => if p.1 == k then (k, v) else p)) q = lookupStr l q := by
  induction l with
  | nil => rfl
  | cons p rest ih =>
    simp only [List.map_cons]
    by_cases hp : p.1 = k
    · rw [if_pos (by simp [hp])]
      rw [lookupStr_cons_neg _ _ _ (fun hc => hq hc.symm)]
      rw [lookupStr_cons_neg _ _ _ (fun hc => hq (by rw [← hc, hp]))]
      exact ih
    · rw [if_neg (by simp [hp])]
      by_cases hpq : p.1 = q
      · rw [lookupStr_cons_pos _ _ _ hpq, lookupStr_cons_pos _ _ _ hpq]
      · rw [lookupStr_cons_neg _ _ _ hpq, lookupStr_cons_neg _ _ _ hpq]
        exact ih

theorem lookupStr_setStr_self (l : List (String × String)) (k v : String) :
    lookupStr (setStr l k v) k = some v := by
  induction l with
  | nil => simp [setStr_nil, lookupStr_cons_pos]
  | cons p rest ih =>
    by_cases hp : p.1 = k
    · rw [setStr_cons_pos p rest k v hp]
      exact lookupStr_cons_pos (k, v) _ k rfl
    · rw [setStr_cons_neg p rest k v hp]
      rw [lookupStr_cons_neg _ _ _ hp]
      exact ih

theorem lookupStr_setStr_ne (l : List (String × String)) (k v q : String) (hq : q ≠ k) :
    lookupStr (setStr l k v) q = lookupStr l q := by
  induction l with
  | nil =>
    rw [setStr_nil]
    rw [lookupStr_cons_neg _ _ _ (fun hc => hq hc.symm)]
  | cons p rest ih =>
    by_cases hp : p.1 = k
    · rw [setStr_cons_pos p rest k v hp]
      rw [lookupStr_cons_neg _ _ _ (fun hc => hq hc.symm)]
      rw [lookupStr_cons_neg _ _ _ (fun hc => hq (by rw [← hc, hp]))]
      exact find?_map_setKey rest k v q hq
    · rw [setStr_cons_neg p rest k v hp]
      by_cases hpq : p.1 = q
      · rw [lookupStr_cons_pos _ _ _ hpq, lookupStr_cons_pos _ _ _ hpq]
      · rw [lookupStr_cons_neg _ _ _ hpq, lookupStr_cons_neg _ _ _ hpq]
        exact ih

theorem lookupStr_mergeAttrs_notin (base extra : List (String × String)) (k : String)
    (h : ∀ p ∈ extra, p.1 ≠ k) :
    lookupStr (mergeAttrs base extra) k = lookupStr base k := by
  induction extra generalizing base with
  | nil => rfl
  | cons p rest ih =>
    have hp : p.1 ≠ k := h p (List.mem_cons_self p rest)
    have hr : ∀ q ∈ rest, q.1 ≠ k := fun q hq => h q (List.mem_cons_of_mem p hq)
    show lookupStr (mergeAttrs (setStr base p.1 p.2) rest) k = lookupStr base k
    rw [ih (setStr base p.1 p.2) hr]
    exact lookupStr_setStr_ne base p.1 p.2 k (fun hc => hp hc.symm)

theorem fst_mem_setStr (l : List (String × String)) (k v : String) (p : String × String)
    (hp : p ∈ setStr l k v) : p.1 = k ∨ p.1 ∈ l.map Prod.fst := by
  induction l with
  | nil =>
    rw [setStr_nil] at hp
    left
    have he : p = (k, v) := by simpa using hp
    rw [he]
  | cons q rest ih =>
    by_cases hq : q.1 = k
    · rw [setStr_cons_pos q rest k v hq] at hp
      rcases List.mem_cons.mp hp with h1 | h2
      · left
        rw [h1]
      · rcases List.mem_map.mp h2 with ⟨r, hr, hre⟩
        by_cases hrk : r.1 = k
        · left
          rw [if_pos (by simp [hrk])] at hre
          rw [← hre]
        · right
          rw [if_neg (by simp [hrk])] at hre
          rw [← hre]
          simp only [List.map_cons, List.mem_cons]
          exact Or.inr (List.mem_map.mpr ⟨r, hr, rfl⟩)
    · rw [setStr_cons_neg q rest k v hq] at hp
      rcases List.mem_cons.mp hp with h1 | h2
      · right
        rw [h1]
        simp
      · rcases ih h2 with hk | hin
        · exact Or.inl hk
        · right
          simp only [List.map_cons, List.mem_cons]
          exact Or.inr hin

theorem fst_mem_mergeAttrs (base extra : List (String × String)) (p : String × String)
    (hp : p ∈ mergeAttrs base extra) :
    p.1 ∈ base.map Prod.fst ∨ p.1 ∈ extra.map Prod.fst := by
  induction extra generalizing base with
  | nil => exact Or.inl (List.mem_map.mpr ⟨p, hp, rfl⟩)
  | cons q rest ih =>
    have hp2 : p ∈ mergeAttrs (setStr base q.1 q.2) rest := hp
    rcases ih (setStr base q.1 q.2) hp2 with h1 | h2
    · rcases List.mem_map.mp h1 with ⟨r, hr, hre⟩
      rcases fst_mem_setStr base q.1 q.2 r hr with hk | hin
      · right
        simp [← hre, hk]
      · left
        rw [← hre]
        exact hin
    · right
      simp [List.mem_cons]
      right
      simpa using h2

/-! ## Claim C10 -/

/-- C10: `sendReceipt` called with an empty message id list throws
`missing ids in receipt` before building any node, so no `<receipt>`
stanza reaches `sendNode` in that case. -/
theorem sendReceipt_empty_ids_throws (jid : String) (participant : Option String)
    (rtype : String) (now : Nat) :
    sendReceipt jid participant [] rtype now = Except.error "missing ids in receipt" := rfl

/-! ## Claim C9 -/

/-- C9: every participant record produced by `extractGroupMetadata` has
its `id` field equal to its `jid` field (both carry the resolved
phone-number JID, or the LID fallback), for every input node. -/
theorem extractGroupMetadata_participant_id_eq_jid (result : BinaryNode)
    (cache : Option (List (String × List (String × String)))) (meta : GroupMetadataRec)
    (hm : extractGroupMetadata result cache = some meta)
    (p : GroupParticipantRec) (hp : p ∈ meta.participants) : p.id = p.jid := by
  unfold extractGroupMetadata at hm
  split at hm
  · exact absurd hm (by simp)
  · dsimp only at hm
    split at hm
    · exact absurd hm (by simp)
    · simp only [Option.some_inj] at hm
      subst hm
      simp only [List.mem_map] at hp
      rcases hp with ⟨nd, hnd, hpe⟩
      rw [← hpe]
      rfl

/-- Witness for C9 at a concrete metadata node. -/
theorem extractGroupMetadata_participant_id_eq_jid_witness :
    extractGroupMetadata c9Node none = some c9Meta ∧ c9Part ∈ c9Meta.participants ∧
      c9Part.id = c9Part.jid :=
  ⟨rfl, by decide,
    extractGroupMetadata_participant_id_eq_jid c9Node none c9Meta rfl c9Part (by decide)⟩

/-! ## Claim C6 -/

/-- C6: when both mapping directions are populated with the pair of
`x`'s LID user and a PN user (in the cache-then-database order the store
consults), `getLIDForPN (getPNForLID x)` returns the user-level LID JID
of `x`. -/
theorem lid_pn_roundtrip (s : LidState) (x pnUser u : String) (dev : Option Nat)
    (hx : jidDecode x = some ⟨u, "lid", dev⟩)
    (hp : validName pnUser)
    (hrev : (match lookupTruthy s.cacheLid u with
             | some v => some v
             | none => lookupTruthy s.db (u ++ "_reverse")) = some pnUser)
    (hfwd : (match lookupTruthy s.cachePn pnUser with
             | some v => some v
             | none => lookupTruthy s.db pnUser) = some u) :
    (getLIDForPN (getPNForLID s x).2 (((getPNForLID s x).1).getD "")).1 = some (u ++ "@lid") := by
  have hlid : isLidUser x = true := by
    unfold isLidUser
    rw [hx]
    rfl
  have hcat : pnUser ++ "@" ++ "s.whatsapp.net" = pnUser ++ "@s.whatsapp.net" := by
    rw [String.append_assoc]
    rfl
  have hdec : jidDecode (pnUser ++ "@s.whatsapp.net") = some ⟨pnUser, "s.whatsapp.net", none⟩ := by
    rw [← hcat]
    exact jidDecode_user_server pnUser "s.whatsapp.net" hp (by decide)
  have hpn : isPnUser (pnUser ++ "@s.whatsapp.net") = true := by
    unfold isPnUser
    rw [hdec]
    rfl
  have step2 : ∀ s2 : LidState, s2.cachePn = s.cachePn → s2.db = s.db →
      (getLIDForPN s2 (pnUser ++ "@s.whatsapp.net")).1 = some (u ++ "@lid") := by
    intro s2 hcp hdb
    unfold getLIDForPN
    rw [hpn]
    simp only [Bool.not_true, Bool.false_eq_true, if_false, hdec]
    rw [hcp, hdb]
    cases hfc : lookupTruthy s.cachePn pnUser with
    | some v =>
      rw [hfc] at hfwd
      simp only [Option.some_inj] at hfwd
      simp [hfwd]
    | none =>
      rw [hfc] at hfwd
      simp only at hfwd
      rw [hfwd]
  unfold getPNForLID
  rw [hlid]
  simp only [Bool.not_true, Bool.false_eq_true, if_false, hx]
  cases hrc : lookupTruthy s.cacheLid u with
  | some v =>
    rw [hrc] at hrev
    simp only [Option.some_inj] at hrev
    subst hrev
    exact step2 s rfl rfl
  | none =>
    rw [hrc] at hrev
    simp only at hrev
    rw [hrev]
    exact step2 _ rfl rfl

/-! ## Claim C7 -/

theorem isLidUser_decode_isSome (j : String) (h : isLidUser j = true) :
    (jidDecode j).isSome = true := by
  unfold isLidUser at h
  cases hd : jidDecode j with
  | none =>
    rw [hd] at h
    exact absurd h (by simp)
  | some fj => simp

theorem isPnUser_decode_isSome (j : String) (h : isPnUser j = true) :
    (jidDecode j).isSome = true := by
  unfold isPnUser at h
  cases hd : jidDecode j with
  | none =>
    rw [hd] at h
    exact absurd h (by simp)
  | some fj => simp

theorem storeStep_of_invalid (s : LidState) (pm : List (String × String))
    (lid pn : String) (hv : validMappingPair (lid, pn) = false) :
    storeStep s pm (lid, pn) = StoreStepRes.invalid := by
  unfold validMappingPair at hv
  simp only at hv
  unfold storeStep
  simp only
  rw [if_pos (by simp [hv])]

theorem storeStep_of_valid (s : LidState) (pm : List (String × String)) (lid pn : String)
    (hv : validMappingPair (lid, pn) = true) :
    ∃ s2 pm2, storeStep s pm (lid, pn) = StoreStepRes.ok s2 pm2 := by
  unfold validMappingPair at hv
  simp only at hv
  have hlidJ : (jidDecode (if isLidUser lid then lid else pn)).isSome = true := by
    by_cases hla : isLidUser lid = true
    · rw [if_pos hla]
      exact isLidUser_decode_isSome lid hla
    · rw [if_neg hla]
      simp only [Bool.or_eq_true, Bool.and_eq_true] at hv
      rcases hv with ⟨h1, _⟩ | ⟨_, h2⟩
      · exact absurd h1 hla
      · exact isLidUser_decode_isSome pn h2
  have hpnJ : (jidDecode (if isLidUser lid then pn else lid)).isSome = true := by
    by_cases hla : isLidUser lid = true
    · rw [if_pos hla]
      simp only [Bool.or_eq_true, Bool.and_eq_true] at hv
      rcases hv with ⟨_, h1⟩ | ⟨_, h2⟩
      · exact isPnUser_decode_isSome pn h1
      · exact isLidUser_decode_isSome pn h2
    · rw [if_neg hla]
      simp only [Bool.or_eq_true, Bool.and_eq_true] at hv
      rcases hv with ⟨h1, _⟩ | ⟨h2, _⟩
      · exact absurd h1 hla
      · exact isPnUser_decode_isSome lid h2
  obtain ⟨lidDec, hld⟩ := Option.isSome_iff_exists.mp hlidJ
  obtain ⟨pnDec, hpd⟩ := Option.isSome_iff_exists.mp hpnJ
  unfold storeStep
  simp only
  rw [if_neg (by simp [hv])]
  rw [hld, hpd]
  simp only
  split
  · exact ⟨_, _, rfl⟩
  · exact ⟨_, _, rfl⟩

theorem storeGo_warn_shift (pairs : List (String × String)) :
    ∀ (s : LidState) (w k : Nat) (pm : List (String × String)),
      storeGo s (w + k) pm pairs = addWarn k (storeGo s w pm pairs) := by
  induction pairs with
  | nil =>
    intro s w k pm
    rfl
  | cons pr rest ih =>
    intro s w k pm
    simp only [storeGo]
    cases hs : storeStep s pm pr with
    | invalid =>
      have harr : w + k + 1 = w + 1 + k := by omega
      rw [harr]
      exact ih s (w + 1) k pm
    | ok s2 pm2 => exact ih s2 w k pm2
    | abort => rfl

theorem addWarn_addWarn (a b : Nat) (o : StoreOutcome) :
    addWarn a (addWarn b o) = addWarn (b + a) o := by
  cases o <;> simp [addWarn, Nat.add_assoc]

theorem storeGo_filter_valid (pairs : List (String × String)) :
    ∀ (s : LidState) (w : Nat) (pm : List (String × String)),
      storeGo s w pm pairs =
        addWarn (pairs.countP (fun pr => !validMappingPair pr))
          (storeGo s w pm (pairs.filter validMappingPair)) := by
  induction pairs with
  | nil =>
    intro s w pm
    rfl
  | cons pr rest ih =>
    intro s w pm
    obtain ⟨lid, pn⟩ := pr
    by_cases hv : validMappingPair (lid, pn) = true
    · rw [List.filter_cons_of_pos (by simp [hv])]
      obtain ⟨s2, pm2, hok⟩ := storeStep_of_valid s pm lid pn hv
      simp only [storeGo, hok]
      have hcnt : List.countP (fun pr => !validMappingPair pr) ((lid, pn) :: rest)
          = List.countP (fun pr => !validMappingPair pr) rest := by
        rw [List.countP_cons_of_neg]
        simp [hv]
      rw [hcnt]
      exact ih s2 w pm2
    · have hv2 : validMappingPair (lid, pn) = false := by simpa using hv
      rw [List.filter_cons_of_neg (by simp [hv2])]
      have hstep := storeStep_of_invalid s pm lid pn hv2
      simp only [storeGo, hstep]
      have hshift : storeGo s (w + 1) pm rest = addWarn 1 (storeGo s w pm rest) :=
        storeGo_warn_shift rest s w 1 pm
      rw [hshift, ih s w pm, addWarn_addWarn]
      have hcnt : List.countP (fun pr => !validMappingPair pr) ((lid, pn) :: rest)
          = List.countP (fun pr => !validMappingPair pr) rest + 1 := by
        rw [List.countP_cons_of_pos]
        simp [hv2]
      rw [hcnt]

theorem storeGo_all_valid (pairs : List (String × String))
    (hv : ∀ pr ∈ pairs, validMappingPair pr = true) :
    ∀ (s : LidState) (w : Nat) (pm : List (String × String)),
      ∃ s2, storeGo s w pm pairs = StoreOutcome.completed s2 w := by
  induction pairs with
  | nil =>
    intro s w pm
    exact ⟨storeApply s pm, rfl⟩
  | cons pr rest ih =>
    intro s w pm
    obtain ⟨lid, pn⟩ := pr
    obtain ⟨s2, pm2, hok⟩ := storeStep_of_valid s pm lid pn (hv _ (List.mem_cons_self _ _))
    simp only [storeGo, hok]
    exact ih (fun q hq => hv q (List.mem_cons_of_mem _ hq)) s2 w pm2

/-- C7: `storeLIDPNMappings` completes normally on every input batch and
never throws: the decode-failure early return is unreachable because a
pair passing the server rule always decodes; each invalid pair
contributes exactly one warning and nothing else, and the final state is
exactly the one produced by processing only the valid pairs. -/
theorem storeLIDPNMappings_skips_invalid (s : LidState) (pairs : List (String × String)) :
    ∃ s2, storeLIDPNMappings s pairs
        = StoreOutcome.completed s2 (pairs.countP (fun pr => !validMappingPair pr)) ∧
      storeLIDPNMappings s (pairs.filter validMappingPair) = StoreOutcome.completed s2 0 := by
  obtain ⟨s2, h2⟩ := storeGo_all_valid (pairs.filter validMappingPair)
    (fun pr hpr => (List.mem_filter.mp hpr).2) s 0 []
  refine ⟨s2, ?_, h2⟩
  unfold storeLIDPNMappings
  rw [storeGo_filter_valid pairs s 0 []]
  have h3 : storeGo s 0 [] (pairs.filter validMappingPair) = StoreOutcome.completed s2 0 := h2
  rw [h3]
  simp [addWarn]

/-! ## Claim C8 -/

theorem usyncClassifyStep_eq (acc : List DeviceWithJid × List (String × Option String))
    (j : String) :
    usyncClassifyStep acc j =
      if usyncExplicitInput j then
        (acc.1 ++ [⟨((jidDecode j).map FullJid.user).getD "", (jidDecode j).bind FullJid.device, j⟩],
          acc.2)
      else
        (acc.1, acc.2 ++ [(if isLidUser j then j else jidNormalizedUser j,
          (jidDecode j).map FullJid.user)]) := rfl

theorem usyncClassify_foldl (jids : List String) :
    ∀ (a : List DeviceWithJid) (b : List (String × Option String)),
      jids.foldl usyncClassifyStep (a, b) =
        (a ++ (usyncClassify jids).1, b ++ (usyncClassify jids).2) := by
  induction jids with
  | nil =>
    intro a b
    simp [usyncClassify]
  | cons j rest ih =>
    intro a b
    have hcls : usyncClassify (j :: rest)
        = rest.foldl usyncClassifyStep (usyncClassifyStep ([], []) j) := rfl
    show rest.foldl usyncClassifyStep (usyncClassifyStep (a, b) j) = _
    rw [usyncClassifyStep_eq, hcls, usyncClassifyStep_eq]
    by_cases hc : usyncExplicitInput j = true
    · rw [if_pos hc, if_pos hc, ih]
      rw [ih]
      simp
    · rw [if_neg hc, if_neg hc, ih]
      rw [ih]
      simp

theorem usyncClassify_cons (j : String) (rest : List String) :
    usyncClassify (j :: rest) =
      ((usyncClassifyStep ([], []) j).1 ++ (usyncClassify rest).1,
        (usyncClassifyStep ([], []) j).2 ++ (usyncClassify rest).2) := by
  have hcls : usyncClassify (j :: rest)
      = rest.foldl usyncClassifyStep (usyncClassifyStep ([], []) j) := rfl
  rw [hcls]
  have hpair : usyncClassifyStep ([], []) j
      = ((usyncClassifyStep ([], []) j).1, (usyncClassifyStep ([], []) j).2) := rfl
  rw [hpair, usyncClassify_foldl rest]

theorem usyncClassify_fst_explicit (jids : List String) (jid : String) (fj : FullJid) (n : Nat)
    (hmem : jid ∈ jids) (hdec : jidDecode jid = some fj) (hdev : fj.device = some n)
    (hu : fj.user ≠ "") :
    (⟨fj.user, some n, jid⟩ : DeviceWithJid) ∈ (usyncClassify jids).1 := by
  induction jids with
  | nil => cases hmem
  | cons j rest ih =>
    rw [usyncClassify_cons]
    rcases List.mem_cons.mp hmem with hj | hr
    · subst hj
      have hexp : usyncExplicitInput jid = true := by
        unfold usyncExplicitInput
        rw [hdec]
        simp [hdev, hu]
      rw [usyncClassifyStep_eq, if_pos hexp]
      apply List.mem_append.mpr
      left
      simp [hdec, hdev]
    · exact List.mem_append.mpr (Or.inr (ih hr))

theorem usyncClassify_snd_filter (jids : List String) :
    (usyncClassify jids).2 =
      (usyncClassify (jids.filter (fun j => !usyncExplicitInput j))).2 := by
  induction jids with
  | nil => rfl
  | cons j rest ih =>
    by_cases hc : usyncExplicitInput j = true
    · rw [List.filter_cons_of_neg (by simp [hc])]
      rw [usyncClassify_cons, usyncClassifyStep_eq, if_pos hc]
      simpa using ih
    · rw [List.filter_cons_of_pos (by simp [hc])]
      rw [usyncClassify_cons, usyncClassify_cons]
      rw [usyncClassifyStep_eq, if_neg hc]
      simp only
      rw [ih]

theorem getUSyncDevices_snd (useCache : Bool) (cacheGet : String → Option (List DeviceWithJid))
    (usyncExtract : List String → List USyncItem) (izd : Bool) (jids : List String) :
    (getUSyncDevices useCache cacheGet usyncExtract izd jids).2 =
      (usyncCacheScan useCache cacheGet (usyncClassify jids).2).2 := by
  unfold getUSyncDevices
  dsimp only
  split
  · rfl
  · rfl

theorem getUSyncDevices_fst (useCache : Bool) (cacheGet : String → Option (List DeviceWithJid))
    (usyncExtract : List String → List USyncItem) (izd : Bool) (jids : List String) :
    (getUSyncDevices useCache cacheGet usyncExtract izd jids).1 =
      (usyncClassify jids).1 ++ (usyncCacheScan useCache cacheGet (usyncClassify jids).2).1 ++
        (if ((usyncCacheScan useCache cacheGet (usyncClassify jids).2).2).isEmpty then []
         else (usyncExtract (usyncCacheScan useCache cacheGet (usyncClassify jids).2).2).map
           (fun it => (⟨it.user, some it.device, usyncFinalJid it⟩ : DeviceWithJid))) := by
  unfold getUSyncDevices
  dsimp only
  split
  · simp
  · rfl

/-- C8: every input JID of `getUSyncDevices` carrying an explicit device
number is passed through unchanged into the result list (same user, same
device number, same JID string), and contributes nothing to the USync
fetch: the fetched-JID list is unchanged when all explicit-device inputs
are removed. -/
theorem getUSyncDevices_explicit_passthrough (useCache : Bool)
    (cacheGet : String → Option (List DeviceWithJid))
    (usyncExtract : List String → List USyncItem) (ignoreZeroDevices : Bool)
    (jids : List String) (jid : String) (fj : FullJid) (n : Nat)
    (hmem : jid ∈ jids) (hdec : jidDecode jid = some fj) (hdev : fj.device = some n)
    (hu : fj.user ≠ "") :
    (⟨fj.user, some n, jid⟩ : DeviceWithJid)
        ∈ (getUSyncDevices useCache cacheGet usyncExtract ignoreZeroDevices jids).1 ∧
      (getUSyncDevices useCache cacheGet usyncExtract ignoreZeroDevices jids).2 =
        (getUSyncDevices useCache cacheGet usyncExtract ignoreZeroDevices
          (jids.filter (fun j => !usyncExplicitInput j))).2 := by
  constructor
  · have hmem2 := usyncClassify_fst_explicit jids jid fj n hmem hdec hdev hu
    rw [getUSyncDevices_fst]
    exact List.mem_append.mpr (Or.inl (List.mem_append.mpr (Or.inl hmem2)))
  · rw [getUSyncDevices_snd, getUSyncDevices_snd, usyncClassify_snd_filter]

/-- Witness for C8 at a concrete input carrying device 5. -/
theorem getUSyncDevices_explicit_passthrough_witness :
    jidDecode "7@lid:5" = some ⟨"7", "lid", some 5⟩ ∧
    ((⟨"7", some 5, "7@lid:5"⟩ : DeviceWithJid)
        ∈ (getUSyncDevices true c8CacheGet c8Extract false ["7@lid:5", "8@s.whatsapp.net"]).1 ∧
      (getUSyncDevices true c8CacheGet c8Extract false ["7@lid:5", "8@s.whatsapp.net"]).2 =
        (getUSyncDevices true c8CacheGet c8Extract false
          (["7@lid:5", "8@s.whatsapp.net"].filter (fun j => !usyncExplicitInput j))).2) :=
  ⟨by decide,
    getUSyncDevices_explicit_passthrough true c8CacheGet c8Extract false
      ["7@lid:5", "8@s.whatsapp.net"] "7@lid:5" ⟨"7", "lid", some 5⟩ 5 (by decide) (by decide)
      (by decide) (by decide)⟩

/-! ## Relay toolkit -/

@[simp] theorem tag_node (t : String) (a : List (String × String)) (c : BNContent) :
    (BinaryNode.node t a c).tag = t := rfl

@[simp] theorem attrs_node (t : String) (a : List (String × String)) (c : BNContent) :
    (BinaryNode.node t a c).attrs = a := rfl

@[simp] theorem childNodes_node_children (t : String) (a : List (String × String))
    (cs : List BinaryNode) :
    (BinaryNode.node t a (BNContent.children cs)).childNodes = cs := rfl

@[simp] theorem childNodes_node_bytes (t : String) (a : List (String × String)) (b : List Nat) :
    (BinaryNode.node t a (BNContent.bytes b)).childNodes = [] := rfl

theorem CipherType.str_ne_skmsg (t : CipherType) : t.str ≠ "skmsg" := by
  cases t <;> decide

theorem CipherType.str_cases (t : CipherType) : t.str = "msg" ∨ t.str = "pkmsg" := by
  cases t
  · exact Or.inl rfl
  · exact Or.inr rfl

theorem relayExtraAttrs_keys (message : IMessage) (p : String × String)
    (hp : p ∈ relayExtraAttrs message) : p.1 = "mediatype" ∨ p.1 = "decrypt-fail" := by
  unfold relayExtraAttrs at hp
  have he1 : ∀ q : String × String,
      q ∈ (if (getMediaType message != "") = true
        then [("mediatype", getMediaType message)] else ([] : List (String × String))) →
      q.1 = "mediatype" := by
    intro q hq
    by_cases hmt : (getMediaType message != "") = true
    · rw [if_pos hmt] at hq
      have : q = ("mediatype", getMediaType message) := by simpa using hq
      rw [this]
    · rw [if_neg hmt] at hq
      cases hq
  by_cases hpin : message.pinInChat = true
  · rw [if_pos hpin] at hp
    rcases fst_mem_mergeAttrs _ _ _ hp with h1 | h2
    · rcases List.mem_map.mp h1 with ⟨q, hq, hqe⟩
      exact Or.inl (by rw [← hqe]; exact he1 q hq)
    · right
      simpa using h2
  · rw [if_neg hpin] at hp
    exact Or.inl (he1 p hp)

theorem relayExtraAttrs_no_type (message : IMessage) :
    ∀ p ∈ relayExtraAttrs message, p.1 ≠ "type" := by
  intro p hp
  rcases relayExtraAttrs_keys message p hp with h | h <;> simp [h]

theorem relayExtraAttrs_no_count (message : IMessage) :
    ∀ p ∈ relayExtraAttrs message, p.1 ≠ "count" := by
  intro p hp
  rcases relayExtraAttrs_keys message p hp with h | h <;> simp [h]

theorem enc_merge_type (t : String) (extra : List (String × String))
    (hextra : ∀ p ∈ extra, p.1 ≠ "type") :
    lookupStr (mergeAttrs [("v", "2"), ("type", t)] extra) "type" = some t := by
  rw [lookupStr_mergeAttrs_notin _ _ _ hextra]
  rw [lookupStr_cons_neg _ _ _ (by decide)]
  exact lookupStr_cons_pos _ _ _ rfl

theorem enc_merge_count (t : String) (extra : List (String × String))
    (hextra : ∀ p ∈ extra, p.1 ≠ "count") :
    lookupStr (mergeAttrs [("v", "2"), ("type", t)] extra) "count" = none := by
  rw [lookupStr_mergeAttrs_notin _ _ _ hextra]
  rw [lookupStr_cons_neg _ _ _ (by simp)]
  rw [lookupStr_cons_neg _ _ _ (by simp)]
  rfl

theorem mkParticipantToNode_tag (j : String) (enc : CipherPair)
    (extra : List (String × String)) : (mkParticipantToNode j enc extra).tag = "to" := rfl

theorem mkParticipantToNode_jid (j : String) (enc : CipherPair)
    (extra : List (String × String)) :
    getAttr (mkParticipantToNode j enc extra) "jid" = some j := by
  unfold mkParticipantToNode getAttr
  simp only [attrs_node]
  exact lookupStr_cons_pos _ _ _ rfl

theorem mkParticipantToNode_children (j : String) (enc : CipherPair)
    (extra : List (String × String)) :
    (mkParticipantToNode j enc extra).childNodes =
      [BinaryNode.node "enc" (mergeAttrs [("v", "2"), ("type", enc.ctype.str)] extra)
        (BNContent.bytes enc.ciphertext)] := rfl

/-- Every node produced by the recipient loop is a `<to>` envelope for a
non-empty recipient JID from the input list, holding the `<enc>` of a
performed encryption. -/
theorem cpnGo_sound (env : RelayEnv) (patched : IMessage) (dsm : Option IMessage)
    (extra : List (String × String)) :
    ∀ (js : List String) (ns : List BinaryNode) (flag : Bool)
      (aud : List (String × CipherType)),
      cpnGo env patched dsm extra js = some (ns, flag, aud) →
      ∀ n ∈ ns, ∃ j, j ∈ js ∧ j ≠ "" ∧ ∃ enc : CipherPair,
        env.encryptMessage j (env.encodeWA (msgToEncryptFor env patched dsm j)) = some enc ∧
        n = mkParticipantToNode j enc extra := by
  intro js
  induction js with
  | nil =>
    intro ns flag aud h n hn
    simp only [cpnGo, Option.some_inj, Prod.mk.injEq] at h
    rw [← h.1] at hn
    cases hn
  | cons j rest ih =>
    intro ns flag aud h n hn
    simp only [cpnGo] at h
    cases hr : cpnGo env patched dsm extra rest with
    | none =>
      rw [hr] at h
      exact absurd h (by simp)
    | some trip =>
      obtain ⟨ns2, flag2, aud2⟩ := trip
      rw [hr] at h
      simp only at h
      by_cases hj : (j == "") = true
      · rw [if_pos hj] at h
        simp only [Option.some_inj, Prod.mk.injEq] at h
        rw [← h.1] at hn
        obtain ⟨j2, hj2, hne, enc, he, hneq⟩ := ih ns2 flag2 aud2 hr n hn
        exact ⟨j2, List.mem_cons_of_mem j hj2, hne, enc, he, hneq⟩
      · rw [if_neg hj] at h
        cases he : env.encryptMessage j (env.encodeWA (msgToEncryptFor env patched dsm j)) with
        | some enc =>
          rw [he] at h
          simp only [Option.some_inj, Prod.mk.injEq] at h
          rw [← h.1] at hn
          rcases List.mem_cons.mp hn with hn1 | hn2
          · exact ⟨j, List.mem_cons_self j rest, by simpa using hj, enc, he, hn1⟩
          · obtain ⟨j2, hj2, hne, enc2, he2, hneq⟩ := ih ns2 flag2 aud2 hr n hn2
            exact ⟨j2, List.mem_cons_of_mem j hj2, hne, enc2, he2, hneq⟩
        | none =>
          rw [he] at h
          by_cases hc : env.compatV6GroupSend = true
          · rw [if_pos hc] at h
            simp only [Option.some_inj, Prod.mk.injEq] at h
            rw [← h.1] at hn
            obtain ⟨j2, hj2, hne, enc2, he2, hneq⟩ := ih ns2 flag2 aud2 hr n hn
            exact ⟨j2, List.mem_cons_of_mem j hj2, hne, enc2, he2, hneq⟩
          · rw [if_neg hc] at h
            exact absurd h (by simp)

/-- A `pkmsg` among the performed encryptions raises the
device-identity flag. -/
theorem cpnGo_pkmsg_flag (env : RelayEnv) (patched : IMessage) (dsm : Option IMessage)
    (extra : List (String × String)) :
    ∀ (js : List String) (ns : List BinaryNode) (flag : Bool)
      (aud : List (String × CipherType)),
      cpnGo env patched dsm extra js = some (ns, flag, aud) →
      ∀ j t, (j, t) ∈ aud → t = CipherType.pkmsg → flag = true := by
  intro js
  induction js with
  | nil =>
    intro ns flag aud h j t ht _
    simp only [cpnGo, Option.some_inj, Prod.mk.injEq] at h
    rw [← h.2.2] at ht
    cases ht
  | cons j0 rest ih =>
    intro ns flag aud h j t ht hpk
    simp only [cpnGo] at h
    cases hr : cpnGo env patched dsm extra rest with
    | none =>
      rw [hr] at h
      exact absurd h (by simp)
    | some trip =>
      obtain ⟨ns2, flag2, aud2⟩ := trip
      rw [hr] at h
      simp only at h
      by_cases hj : (j0 == "") = true
      · rw [if_pos hj] at h
        simp only [Option.some_inj, Prod.mk.injEq] at h
        rw [← h.2.2] at ht
        rw [← h.2.1]
        exact ih ns2 flag2 aud2 hr j t ht hpk
      · rw [if_neg hj] at h
        cases he : env.encryptMessage j0 (env.encodeWA (msgToEncryptFor env patched dsm j0)) with
        | some enc =>
          rw [he] at h
          simp only [Option.some_inj, Prod.mk.injEq] at h
          rw [← h.2.2] at ht
          rw [← h.2.1]
          rcases List.mem_cons.mp ht with h1 | h2
          · have : enc.ctype = CipherType.pkmsg := by
              have := congrArg Prod.snd h1
              simpa [hpk] using this.symm
            simp [this]
          · rw [ih ns2 flag2 aud2 hr j t h2 hpk]
            simp
        | none =>
          rw [he] at h
          by_cases hc : env.compatV6GroupSend = true
          · rw [if_pos hc] at h
            simp only [Option.some_inj, Prod.mk.injEq] at h
            rw [← h.2.2] at ht
            rw [← h.2.1]
            exact ih ns2 flag2 aud2 hr j t ht hpk
          · rw [if_neg hc] at h
            exact absurd h (by simp)

theorem createParticipantNodes_sound (env : RelayEnv) (js : List String) (message : IMessage)
    (extra : List (String × String)) (dsm : Option IMessage) (ns : List BinaryNode)
    (flag : Bool) (aud : List (String × CipherType))
    (h : createParticipantNodes env js message extra dsm = some (ns, flag, aud)) :
    ∀ n ∈ ns, ∃ j, j ∈ js ∧ j ≠ "" ∧ ∃ enc : CipherPair,
      env.encryptMessage j (env.encodeWA (msgToEncryptFor env (env.patch message) dsm j))
          = some enc ∧
      n = mkParticipantToNode j enc extra := by
  unfold createParticipantNodes at h
  by_cases hmt : js.isEmpty = true
  · rw [if_pos hmt] at h
    simp only [Option.some_inj, Prod.mk.injEq] at h
    intro n hn
    rw [← h.1] at hn
    cases hn
  · rw [if_neg hmt] at h
    exact cpnGo_sound env (env.patch message) dsm extra js ns flag aud h

theorem createParticipantNodes_pkmsg_flag (env : RelayEnv) (js : List String)
    (message : IMessage) (extra : List (String × String)) (dsm : Option IMessage)
    (ns : List BinaryNode) (flag : Bool) (aud : List (String × CipherType))
    (h : createParticipantNodes env js message extra dsm = some (ns, flag, aud)) :
    ∀ j t, (j, t) ∈ aud → t = CipherType.pkmsg → flag = true := by
  unfold createParticipantNodes at h
  by_cases hmt : js.isEmpty = true
  · rw [if_pos hmt] at h
    simp only [Option.some_inj, Prod.mk.injEq] at h
    intro j t ht _
    rw [← h.2.2] at ht
    cases ht
  · rw [if_neg hmt] at h
    exact cpnGo_pkmsg_flag env (env.patch message) dsm extra js ns flag aud h

theorem finishStanza_childNodes (env : RelayEnv) (message : IMessage)
    (dest : String) (part : Option RetryParticipant) (msgId : String)
    (addAttrs : List (String × String)) (addNodes : List BinaryNode)
    (encContent : List BinaryNode) (pNodes : List BinaryNode) (flag : Bool) :
    (finishStanza env message dest part msgId addAttrs addNodes encContent pNodes
      flag).childNodes =
      encContent ++ wrappedParticipants addAttrs pNodes ++ identitySeg env flag ++
        bizSeg message ++ addNodes := rfl

theorem finishStanza_attrs (env : RelayEnv) (message : IMessage)
    (dest : String) (part : Option RetryParticipant) (msgId : String)
    (addAttrs : List (String × String)) (addNodes : List BinaryNode)
    (encContent : List BinaryNode) (pNodes : List BinaryNode) (flag : Bool) :
    (finishStanza env message dest part msgId addAttrs addNodes encContent pNodes
      flag).attrs = relayStanzaAttrs env message dest part msgId addAttrs := rfl

theorem filter_sk_nil_of_tags (l : List BinaryNode) (h : ∀ n ∈ l, n.tag ≠ "enc") :
    l.filter skPred = [] := by
  rw [List.filter_eq_nil_iff]
  intro a ha
  simp [skPred, h a ha]

theorem identitySeg_sk (env : RelayEnv) (flag : Bool) :
    (identitySeg env flag).filter skPred = [] := by
  cases flag
  · rfl
  · rfl

theorem bizSeg_sk (message : IMessage) : (bizSeg message).filter skPred = [] := by
  unfold bizSeg
  cases hbt : getButtonType message
  · rfl
  · rfl

theorem wrappedParticipants_sk (addAttrs : List (String × String)) (pNodes : List BinaryNode)
    (hchild : ∀ n ∈ pNodes, ∀ c ∈ n.childNodes, skPred c = false) :
    (wrappedParticipants addAttrs pNodes).filter skPred = [] := by
  unfold wrappedParticipants
  by_cases hmt : pNodes.isEmpty = true
  · rw [if_pos hmt]
    rfl
  · rw [if_neg hmt]
    by_cases hpeer : (lookupStr addAttrs "category" == some "peer") = true
    · rw [if_pos hpeer]
      unfold peerLift
      cases pNodes with
      | nil => rfl
      | cons pn rest =>
        change List.filter skPred (match pn.childNodes with
          | c :: _ => [c]
          | [] => []) = []
        cases hc : pn.childNodes with
        | nil => rfl
        | cons c crest =>
          have hx := hchild pn (List.mem_cons_self _ _)
            c (by rw [hc]; exact List.mem_cons_self _ _)
          simp [hx]
    · rw [if_neg hpeer]
      rfl

theorem sk_enc_filter (extra : List (String × String)) (bytes : List Nat)
    (hextra : ∀ p ∈ extra, p.1 ≠ "type") :
    (([BinaryNode.node "enc" (mergeAttrs [("v", "2"), ("type", "skmsg")] extra)
      (BNContent.bytes bytes)]).filter skPred).length = 1 := by
  have hty := enc_merge_type "skmsg" extra hextra
  simp [skPred, getAttr, hty]

theorem retry_enc_filter (t : CipherType) (cnt : String) (bytes : List Nat) :
    (([BinaryNode.node "enc" [("v", "2"), ("type", t.str), ("count", cnt)]
      (BNContent.bytes bytes)]).filter skPred).length = 0 := by
  have hty : lookupStr [("v", "2"), ("type", t.str), ("count", cnt)] "type" = some t.str := by
    rw [lookupStr_cons_neg _ _ _ (by simp)]
    exact lookupStr_cons_pos _ _ _ rfl
  have hne := CipherType.str_ne_skmsg t
  simp [skPred, getAttr, hty, hne]

/-- The `<enc>` child of every SKDM `<to>` envelope is not an `skmsg`
envelope, for extra attributes free of a `type` key. -/
theorem cpn_child_not_sk (env : RelayEnv) (js : List String) (message : IMessage)
    (extra : List (String × String)) (dsm : Option IMessage) (ns : List BinaryNode)
    (flag : Bool) (aud : List (String × CipherType))
    (hextra : ∀ p ∈ extra, p.1 ≠ "type")
    (h : createParticipantNodes env js message extra dsm = some (ns, flag, aud)) :
    ∀ n ∈ ns, ∀ c ∈ n.childNodes, skPred c = false := by
  intro n hn c hc
  obtain ⟨j, _, _, enc, _, hneq⟩ := createParticipantNodes_sound env js message extra dsm
    ns flag aud h n hn
  rw [hneq] at hc
  rw [mkParticipantToNode_children] at hc
  have hce : c = BinaryNode.node "enc" (mergeAttrs [("v", "2"), ("type", enc.ctype.str)] extra)
      (BNContent.bytes enc.ciphertext) := by simpa using hc
  rw [hce]
  have hty := enc_merge_type enc.ctype.str extra hextra
  have hne := CipherType.str_ne_skmsg enc.ctype
  simp [skPred, getAttr, hty, hne]

/-- Count of direct `<enc type=skmsg>` children of a group-branch
stanza: one without a retry participant, zero with one. -/
theorem relayGroupBranch_skmsg (env : RelayEnv) (jid : String) (message : IMessage)
    (args : RelayArgs) (isStatus : Bool) (destinationJid : String)
    (devices0 : List DeviceWithJid) (addAttrs0 : List (String × String)) (out : RelayOut)
    (hAdd : ∀ n ∈ args.additionalNodes, n.tag ≠ "enc")
    (hrel : relayGroupBranch env jid message args isStatus destinationJid devices0 addAttrs0
      (relayExtraAttrs message) = some out) :
    skmsgEncCount out.stanza = if args.participant.isSome then 0 else 1 := by
  unfold relayGroupBranch at hrel
  rcases Option.bind_eq_some.mp hrel with ⟨trip, htrip, hbody⟩
  obtain ⟨skdmNodes, skdmFlag, skdmAudit⟩ := trip
  have hchild : ∀ n ∈ skdmNodes, ∀ c ∈ n.childNodes, skPred c = false := by
    unfold groupCpn at htrip
    by_cases hmt : (groupSenderKey env args isStatus devices0).1.isEmpty = true
    · rw [if_pos hmt] at htrip
      simp only [Option.some_inj, Prod.mk.injEq] at htrip
      intro n hn
      rw [← htrip.1] at hn
      cases hn
    · rw [if_neg hmt] at htrip
      exact cpn_child_not_sk env _ _ _ _ _ _ _ (relayExtraAttrs_no_type message) htrip
  cases hpart : args.participant with
  | some p =>
    simp only [hpart] at hbody
    rcases Option.map_eq_some.mp hbody with ⟨enc, henc, hout⟩
    rw [← hout]
    simp only [skmsgEncCount, finishStanza_childNodes, List.filter_append,
      List.length_append]
    rw [identitySeg_sk, bizSeg_sk, wrappedParticipants_sk _ _ hchild,
      filter_sk_nil_of_tags _ hAdd]
    simp only [List.length_nil, Nat.add_zero, Option.isSome_some, if_true]
    exact retry_enc_filter enc.ctype (toString p.count) enc.ciphertext
  | none =>
    simp only [hpart] at hbody
    simp only [Option.some_inj] at hbody
    rw [← hbody]
    simp only [skmsgEncCount, finishStanza_childNodes, List.filter_append,
      List.length_append]
    rw [identitySeg_sk, bizSeg_sk, wrappedParticipants_sk _ _ hchild,
      filter_sk_nil_of_tags _ hAdd]
    simp only [List.length_nil, Nat.add_zero, Option.isSome_none, Bool.false_eq_true, if_false]
    exact sk_enc_filter (relayExtraAttrs message)
      (groupCipherOf env message destinationJid).ciphertext (relayExtraAttrs_no_type message)

/-- A direct-branch stanza has no `<enc type=skmsg>` children. -/
theorem relayDirectBranch_skmsg (env : RelayEnv) (jid : String) (message : IMessage)
    (args : RelayArgs) (isLid : Bool) (user destinationJid : String) (meMsg : IMessage)
    (devices0 : List DeviceWithJid) (addAttrs0 : List (String × String)) (out : RelayOut)
    (hAdd : ∀ n ∈ args.additionalNodes, n.tag ≠ "enc")
    (hrel : relayDirectBranch env jid message args isLid user destinationJid meMsg devices0
      addAttrs0 (relayExtraAttrs message) = some out) :
    skmsgEncCount out.stanza = 0 := by
  unfold relayDirectBranch at hrel
  rcases Option.bind_eq_some.mp hrel with ⟨ownDec, _, h1⟩
  rcases Option.bind_eq_some.mp h1 with ⟨devices, _, h2⟩
  rcases Option.bind_eq_some.mp h2 with ⟨meDec, _, h3⟩
  rcases Option.bind_eq_some.mp h3 with ⟨meLidUser, _, h4⟩
  rcases Option.bind_eq_some.mp h4 with ⟨meTrip, hme, h5⟩
  rcases Option.bind_eq_some.mp h5 with ⟨otherTrip, hother, h6⟩
  simp only [Option.some_inj] at h6
  rw [← h6]
  obtain ⟨meNodes, s1, aud1⟩ := meTrip
  obtain ⟨otherNodes, s2, aud2⟩ := otherTrip
  have hchild : ∀ n ∈ meNodes ++ otherNodes, ∀ c ∈ n.childNodes, skPred c = false := by
    intro n hn
    rcases List.mem_append.mp hn with h | h
    · exact cpn_child_not_sk env _ _ _ _ _ _ _ (relayExtraAttrs_no_type message) hme n h
    · exact cpn_child_not_sk env _ _ _ _ _ _ _ (relayExtraAttrs_no_type message) hother n h
  simp only [skmsgEncCount, finishStanza_childNodes, List.filter_append, List.length_append]
  rw [identitySeg_sk, bizSeg_sk, wrappedParticipants_sk _ _ hchild,
    filter_sk_nil_of_tags _ hAdd]
  rfl

theorem jidDecode_statusJid :
    jidDecode "status@broadcast" = some ⟨"status", "broadcast", none⟩ := rfl

theorem isJidGroup_eq (jid : String) (jdec : FullJid) (hd : jidDecode jid = some jdec) :
    isJidGroup jid = (jdec.server == "g.us") := by
  unfold isJidGroup
  rw [hd]
  rfl

/-! ## Claim C2 -/

/-- C2 counterexample: a successful relay to a group destination with an
explicit retry participant carries zero `<enc type=skmsg>` children, so
the claim as stated (exactly one whenever the destination is a group)
fails there. -/
theorem relay_skmsg_count_cex :
    isJidGroup "g1@g.us" = true ∧
    (relayMessage baseEnv "g1@g.us" {} retryArgsGroup).map (fun o => skmsgEncCount o.stanza)
      = some 0 := ⟨rfl, rfl⟩

/-- C2 (amended): the stanza of every successful `relayMessage` call has
exactly one direct `<enc type=skmsg>` child iff the destination is a
group or the status feed and no explicit retry participant was supplied;
otherwise it has zero (provided the caller's additional nodes are not
`<enc>` nodes themselves). -/
theorem relay_skmsg_count (env : RelayEnv) (jid : String) (message : IMessage)
    (args : RelayArgs) (out : RelayOut)
    (hAdd : ∀ n ∈ args.additionalNodes, n.tag ≠ "enc")
    (hrel : relayMessage env jid message args = some out) :
    skmsgEncCount out.stanza =
      if (isJidGroup jid || jid == "status@broadcast") && args.participant.isNone then 1
      else 0 := by
  unfold relayMessage at hrel
  cases hd : jidDecode jid with
  | none =>
    rw [hd] at hrel
    exact absurd hrel (by simp)
  | some jdec =>
    rw [hd] at hrel
    dsimp only at hrel
    rw [isJidGroup_eq jid jdec hd]
    cases hdev : relayDevices0 args with
    | none =>
      rw [hdev] at hrel
      exact absurd hrel (by simp)
    | some devices0 =>
      rw [hdev] at hrel
      dsimp only at hrel
      by_cases hn : (jdec.server == "newsletter") = true
      · rw [if_pos hn] at hrel
        simp only [Option.some_inj] at hrel
        have hsv : jdec.server = "newsletter" := by simpa using hn
        have hng : (jdec.server == "g.us") = false := by simp [hsv]
        have hst : (jid == "status@broadcast") = false := by
          by_cases hj : jid = "status@broadcast"
          · subst hj
            rw [jidDecode_statusJid] at hd
            have : jdec = ⟨"status", "broadcast", none⟩ := by
              simpa using hd.symm
            rw [this] at hsv
            exact absurd hsv (by decide)
          · simp [hj]
        rw [hng, hst]
        simp only [Bool.or_self, Bool.false_and, Bool.false_eq_true, if_false]
        rw [← hrel]
        rfl
      · rw [if_neg hn] at hrel
        by_cases hg : (jdec.server == "g.us" || jid == "status@broadcast") = true
        · rw [if_pos hg] at hrel
          have := relayGroupBranch_skmsg env jid message args (jid == "status@broadcast")
            (if !(jid == "status@broadcast") then jid else "status@broadcast") devices0
            (relayAdditionalAttributes args (jdec.server == "g.us") (jid == "status@broadcast"))
            out hAdd hrel
          rw [this, hg]
          simp only [Bool.true_and]
          cases hp : args.participant
          · simp
          · simp
        · rw [if_neg hg] at hrel
          have := relayDirectBranch_skmsg env jid message args (jdec.server == "lid")
            jdec.user (if !(jid == "status@broadcast") then jid else "status@broadcast")
            (env.mkDeviceSentMessage
              (if !(jid == "status@broadcast") then jid else "status@broadcast") message)
            devices0
            (relayAdditionalAttributes args (jdec.server == "g.us") (jid == "status@broadcast"))
            out hAdd hrel
          rw [this]
          have hg2 : (jdec.server == "g.us" || jid == "status@broadcast") = false := by
            simpa using hg
          rw [hg2]
          simp

/-- Witness for C2 at a concrete group send. -/
theorem relay_skmsg_count_witness :
    relayMessage baseEnv "g1@g.us" {} baseArgs = some c2OutW ∧
    skmsgEncCount c2OutW.stanza =
      (if (isJidGroup "g1@g.us" || "g1@g.us" == "status@broadcast")
          && baseArgs.participant.isNone then 1 else 0) :=
  ⟨rfl,
    relay_skmsg_count baseEnv "g1@g.us" {} baseArgs c2OutW
      (by intro n hn; simp [baseArgs] at hn) rfl⟩

/-! ## Claim C1 -/

theorem senderIdOf_ne_empty (d : DeviceWithJid) : senderIdOf d ≠ "" := by
  unfold senderIdOf jidEncode
  intro h
  have hdata := congrArg String.data h
  simp [String.data_append] at hdata

theorem computeSenderKey_fst (devices : List DeviceWithJid) (m : List (String × Bool)) :
    (computeSenderKey devices m).1 = devices.map senderIdOf := by
  suffices h : ∀ (ds : List DeviceWithJid) (acc : List String × List (String × Bool)),
      (ds.foldl (fun acc d =>
        (acc.1 ++ [senderIdOf d], setBool acc.2 (senderIdOf d) true)) acc).1
        = acc.1 ++ ds.map senderIdOf by
    simpa [computeSenderKey] using h devices ([], m)
  intro ds
  induction ds with
  | nil =>
    intro acc
    simp
  | cons d rest ih =>
    intro acc
    simp only [List.foldl_cons, List.map_cons]
    rw [ih]
    simp

/-- The recipient loop over a list of distinct non-empty JIDs with total
encryption succeeds and its `<to>` nodes carry exactly those JIDs in
order. -/
theorem cpnGo_jids (env : RelayEnv) (patched : IMessage) (dsm : Option IMessage)
    (extra : List (String × String))
    (hEnc : ∀ j b, (env.encryptMessage j b).isSome = true) :
    ∀ (js : List String), (∀ j ∈ js, j ≠ "") →
      ∃ ns flag aud, cpnGo env patched dsm extra js = some (ns, flag, aud) ∧
        ns.filterMap (fun n => if n.tag == "to" then getAttr n "jid" else none) = js := by
  intro js
  induction js with
  | nil => exact fun _ => ⟨[], false, [], rfl, rfl⟩
  | cons j rest ih =>
    intro hne
    obtain ⟨ns, flag, aud, hcpn, hjids⟩ := ih (fun q hq => hne q (List.mem_cons_of_mem _ hq))
    obtain ⟨enc, henc⟩ := Option.isSome_iff_exists.mp
      (hEnc j (env.encodeWA (msgToEncryptFor env patched dsm j)))
    refine ⟨mkParticipantToNode j enc extra :: ns, flag || (enc.ctype == CipherType.pkmsg),
      (j, enc.ctype) :: aud, ?_, ?_⟩
    · simp only [cpnGo, hcpn]
      rw [if_neg (by simp [hne j (List.mem_cons_self _ _)])]
      rw [henc]
    · have hhead : (if (mkParticipantToNode j enc extra).tag == "to"
          then getAttr (mkParticipantToNode j enc extra) "jid" else none) = some j := by
        rw [mkParticipantToNode_tag, mkParticipantToNode_jid]
        rfl
      simp only [List.filterMap_cons, hhead, hjids]

theorem createParticipantNodes_jids (env : RelayEnv) (message : IMessage)
    (dsm : Option IMessage) (extra : List (String × String))
    (hEnc : ∀ j b, (env.encryptMessage j b).isSome = true)
    (js : List String) (hne : ∀ j ∈ js, j ≠ "") :
    ∃ ns flag aud, createParticipantNodes env js message extra dsm = some (ns, flag, aud) ∧
      ns.filterMap (fun n => if n.tag == "to" then getAttr n "jid" else none) = js := by
  unfold createParticipantNodes
  by_cases hmt : js.isEmpty = true
  · rw [if_pos hmt]
    refine ⟨[], false, [], rfl, ?_⟩
    rw [List.isEmpty_iff] at hmt
    rw [hmt]
    rfl
  · rw [if_neg hmt]
    exact cpnGo_jids env (env.patch message) dsm extra hEnc js hne

theorem lookupStr_merge_single_ne (base : List (String × String)) (k v q : String)
    (hq : k ≠ q) :
    lookupStr (mergeAttrs base [(k, v)]) q = lookupStr base q := by
  apply lookupStr_mergeAttrs_notin
  intro p hp
  have : p = (k, v) := by simpa using hp
  rw [this]
  exact hq

theorem groupAttrs_category (env : RelayEnv) (args : RelayArgs) (isStatus : Bool)
    (addAttrs0 : List (String × String)) :
    lookupStr (groupAttrs env args isStatus addAttrs0) "category" =
      lookupStr addAttrs0 "category" := by
  unfold groupAttrs
  dsimp only
  have h1 : ∀ a1 : List (String × String), lookupStr a1 "category" = lookupStr addAttrs0 "category" →
      lookupStr (match env.groupData.bind GroupData.ephemeralDuration with
        | some e => if e > 0 then mergeAttrs a1 [("expiration", toString e)] else a1
        | none => a1) "category" = lookupStr addAttrs0 "category" := by
    intro a1 ha1
    cases he : env.groupData.bind GroupData.ephemeralDuration with
    | none => exact ha1
    | some e =>
      dsimp only
      by_cases hegt : e > 0
      · rw [if_pos hegt]
        rw [lookupStr_merge_single_ne _ _ _ _ (by decide)]
        exact ha1
      · rw [if_neg hegt]
        exact ha1
  apply h1
  cases hp : args.participant with
  | none =>
    by_cases hst : isStatus = true
    · simp [hst]
    · have : isStatus = false := by simpa using hst
      rw [this]
      simp only [Bool.not_false, if_true]
      exact lookupStr_merge_single_ne _ _ _ _ (by decide)
  | some p => rfl

theorem relayAdditionalAttributes_category (args : RelayArgs) (isGroup isStatus : Bool) :
    lookupStr (relayAdditionalAttributes args isGroup isStatus) "category" =
      lookupStr args.additionalAttributes "category" := by
  unfold relayAdditionalAttributes
  cases hp : args.participant with
  | none => rfl
  | some p =>
    by_cases hng : (!isGroup && !isStatus) = true
    · rw [if_pos hng]
      exact lookupStr_merge_single_ne _ _ _ _ (by decide)
    · rw [if_neg hng]

theorem identitySeg_tags (env : RelayEnv) (flag : Bool) :
    ∀ n ∈ identitySeg env flag, n.tag = "device-identity" := by
  intro n hn
  cases flag
  · cases hn
  · have : n = BinaryNode.node "device-identity" [] (BNContent.bytes env.deviceIdentityBytes) := by
      simpa [identitySeg] using hn
    rw [this]
    rfl

theorem bizSeg_tags (message : IMessage) : ∀ n ∈ bizSeg message, n.tag = "biz" := by
  intro n hn
  unfold bizSeg at hn
  cases hbt : getButtonType message with
  | none =>
    rw [hbt] at hn
    cases hn
  | some bt =>
    rw [hbt] at hn
    have : n = BinaryNode.node "biz" []
        (BNContent.children [BinaryNode.node bt (getButtonArgs message)
          (if bt != "list" then BNContent.children (getButtonContent message)
           else BNContent.empty)]) := by
      simpa using hn
    rw [this]
    rfl

theorem filter_tag_nil (l : List BinaryNode) (t : String) (h : ∀ n ∈ l, n.tag ≠ t) :
    l.filter (fun c => c.tag == t) = [] := by
  rw [List.filter_eq_nil_iff]
  intro a ha
  simp [h a ha]

/-- With a non-peer category, the participant JIDs of the finished
stanza are exactly the `jid` attributes of the given `<to>` nodes. -/
theorem stanzaParticipantJids_finish (env : RelayEnv) (message : IMessage)
    (dest : String) (part : Option RetryParticipant) (msgId : String)
    (addAttrs : List (String × String)) (addNodes : List BinaryNode)
    (encContent : List BinaryNode) (pNodes : List BinaryNode) (flag : Bool)
    (hEncT : ∀ n ∈ encContent, n.tag ≠ "participants")
    (hAddP : ∀ n ∈ addNodes, n.tag ≠ "participants")
    (hpeer : (lookupStr addAttrs "category" == some "peer") = false) :
    stanzaParticipantJids
        (finishStanza env message dest part msgId addAttrs addNodes encContent pNodes flag) =
      pNodes.filterMap (fun n => if n.tag == "to" then getAttr n "jid" else none) := by
  unfold stanzaParticipantJids
  rw [finishStanza_childNodes]
  simp only [List.filter_append]
  rw [filter_tag_nil encContent _ hEncT, filter_tag_nil addNodes _ hAddP]
  rw [filter_tag_nil (identitySeg env flag) _
    (fun n hn => by rw [identitySeg_tags env flag n hn]; decide)]
  rw [filter_tag_nil (bizSeg message) _
    (fun n hn => by rw [bizSeg_tags message n hn]; decide)]
  unfold wrappedParticipants
  by_cases hmt : pNodes.isEmpty = true
  · rw [if_pos hmt]
    rw [List.isEmpty_iff] at hmt
    rw [hmt]
    rfl
  · rw [if_neg hmt, if_neg (by simp [hpeer])]
    simp

/-- C1 counterexample: in strict mode (`compatV6GroupSend = false`) with
the peer's primary device already in sender-key-memory, that device
still receives an SKDM envelope, so the claimed strict-mode filtering
does not happen. -/
theorem relay_group_skdm_recipients_cex :
    c1Env.compatV6GroupSend = false ∧
    ("200@s.whatsapp.net", true) ∈ c1Env.senderKeyMemory ∧
    (relayMessage c1Env "g1@g.us" {} baseArgs).map
      (fun o => (stanzaParticipantJids o.stanza).contains "200@s.whatsapp.net") = some true :=
  ⟨rfl, by decide, rfl⟩

/-- C1 (amended): in a group or status relay without a retry
participant, the SKDM recipient set of the stanza is the sender id of
every resolved device — independent of the `compatV6GroupSend` flag and
of the stored sender-key-memory, which are quantified freely here while
the right-hand side mentions neither. -/
theorem relay_group_skdm_recipients (env : RelayEnv) (b : Bool)
    (skm : List (String × Bool)) (jid : String) (message : IMessage) (args : RelayArgs)
    (jdec : FullJid) (out : RelayOut)
    (hd : jidDecode jid = some jdec)
    (hgs : (jdec.server == "g.us" || jid == "status@broadcast") = true)
    (hnl : jdec.server ≠ "newsletter")
    (hpart : args.participant = none)
    (hEnc : ∀ j bts, (env.encryptMessage j bts).isSome = true)
    (hpeer : (lookupStr args.additionalAttributes "category" == some "peer") = false)
    (hAddP : ∀ n ∈ args.additionalNodes, n.tag ≠ "participants")
    (hrel : relayMessage { env with compatV6GroupSend := b, senderKeyMemory := skm }
      jid message args = some out) :
    stanzaParticipantJids out.stanza =
      (relayGroupDevices { env with compatV6GroupSend := b, senderKeyMemory := skm } args
        (jid == "status@broadcast")).map senderIdOf ∧
    relayGroupDevices { env with compatV6GroupSend := b, senderKeyMemory := skm } args
        (jid == "status@broadcast")
      = relayGroupDevices { env with compatV6GroupSend := true, senderKeyMemory := [] } args
          (jid == "status@broadcast") := by
  constructor
  · unfold relayMessage at hrel
    rw [hd] at hrel
    dsimp only at hrel
    rw [show relayDevices0 args = some [] from by rw [relayDevices0, hpart]] at hrel
    dsimp only at hrel
    rw [if_neg (by simpa using hnl), if_pos hgs] at hrel
    unfold relayGroupBranch at hrel
    rcases Option.bind_eq_some.mp hrel with ⟨trip, htrip, hbody⟩
    rw [hpart] at hbody
    simp only [Option.some_inj] at hbody
    set env2 : RelayEnv := { env with compatV6GroupSend := b, senderKeyMemory := skm }
    have hjidsne : ∀ j ∈ (groupSenderKey env2 args (jid == "status@broadcast") []).1, j ≠ "" := by
      intro j hj
      rw [groupSenderKey, computeSenderKey_fst] at hj
      rcases List.mem_map.mp hj with ⟨d, _, hde⟩
      rw [← hde]
      exact senderIdOf_ne_empty d
    have htripJids : trip.1.filterMap
        (fun n => if n.tag == "to" then getAttr n "jid" else none)
        = (groupSenderKey env2 args (jid == "status@broadcast") []).1 := by
      unfold groupCpn at htrip
      by_cases hmt : (groupSenderKey env2 args (jid == "status@broadcast") []).1.isEmpty = true
      · rw [if_pos hmt] at htrip
        simp only [Option.some_inj] at htrip
        rw [← htrip]
        rw [List.isEmpty_iff] at hmt
        rw [hmt]
        rfl
      · rw [if_neg hmt] at htrip
        obtain ⟨ns, flag, aud, hcpn, hjids⟩ :=
          createParticipantNodes_jids env2
            (env2.mkSenderKeyMessage (if !(jid == "status@broadcast") then jid
              else "status@broadcast")
              (groupCipherOf env2 message (if !(jid == "status@broadcast") then jid
                else "status@broadcast")).senderKeyDistributionMessage)
            none (relayExtraAttrs message) hEnc
            (groupSenderKey env2 args (jid == "status@broadcast") []).1 hjidsne
        rw [hcpn] at htrip
        have : trip = (ns, flag, aud) := by simpa using htrip.symm
        rw [this]
        exact hjids
    rw [← hbody]
    have hgattrs : (lookupStr (groupAttrs env2 args (jid == "status@broadcast")
        (relayAdditionalAttributes args (jdec.server == "g.us") (jid == "status@broadcast")))
        "category" == some "peer") = false := by
      rw [groupAttrs_category]
      rw [relayAdditionalAttributes_category]
      exact hpeer
    rw [stanzaParticipantJids_finish _ _ _ _ _ _ _ _ _ _
      (by intro n hn
          have : n = BinaryNode.node "enc"
              (mergeAttrs [("v", "2"), ("type", "skmsg")] (relayExtraAttrs message))
              (BNContent.bytes (groupCipherOf env2 message
                (if !(jid == "status@broadcast") then jid
                 else "status@broadcast")).ciphertext) := by simpa using hn
          rw [this, tag_node]
          decide)
      hAddP hgattrs]
    rw [htripJids]
    rw [groupSenderKey, computeSenderKey_fst]
    unfold groupDevicesSel
    rw [hpart]
  · rfl

/-- Witness for C1 at the concrete strict-mode environment. -/
theorem relay_group_skdm_recipients_witness :
    relayMessage { baseEnv with compatV6GroupSend := false, senderKeyMemory := [("200@s.whatsapp.net", true)] } "g1@g.us" {} baseArgs
      = some c1OutW ∧
    stanzaParticipantJids c1OutW.stanza =
      (relayGroupDevices { baseEnv with compatV6GroupSend := false, senderKeyMemory := [("200@s.whatsapp.net", true)] } baseArgs
        ("g1@g.us" == "status@broadcast")).map senderIdOf :=
  ⟨rfl,
    (relay_group_skdm_recipients baseEnv false [("200@s.whatsapp.net", true)] "g1@g.us" {}
      baseArgs ⟨"g1", "g.us", none⟩ c1OutW rfl rfl (by decide) rfl (fun j bts => rfl) rfl
      (by intro n hn; simp [baseArgs] at hn) rfl).1⟩

/-- Witness for C6 at a concrete populated state. -/
theorem lid_pn_roundtrip_witness :
    (getLIDForPN (getPNForLID c6State "55@lid").2
      (((getPNForLID c6State "55@lid").1).getD "")).1 = some ("55" ++ "@lid") :=
  lid_pn_roundtrip c6State "55@lid" "77" "55" none (by decide) (by decide) (by decide)
    (by decide)

/-! ## Claim C3 -/

theorem hasDeviceIdentity_finish (env : RelayEnv) (message : IMessage) (dest : String)
    (part : Option RetryParticipant) (msgId : String) (addAttrs : List (String × String))
    (addNodes : List BinaryNode) (encContent : List BinaryNode) (pNodes : List BinaryNode)
    (flag : Bool) (hflag : flag = true) :
    hasDeviceIdentity (finishStanza env message dest part msgId addAttrs addNodes encContent
      pNodes flag) = true := by
  subst hflag
  unfold hasDeviceIdentity
  rw [finishStanza_childNodes]
  simp [identitySeg, tag_node]

theorem relayGroupBranch_pkmsg (env : RelayEnv) (jid : String) (message : IMessage)
    (args : RelayArgs) (isStatus : Bool) (destinationJid : String)
    (devices0 : List DeviceWithJid) (addAttrs0 : List (String × String)) (out : RelayOut)
    (j : String)
    (hrel : relayGroupBranch env jid message args isStatus destinationJid devices0 addAttrs0
      (relayExtraAttrs message) = some out)
    (hpk : (j, CipherType.pkmsg) ∈ out.pairwise) :
    hasDeviceIdentity out.stanza = true := by
  unfold relayGroupBranch at hrel
  rcases Option.bind_eq_some.mp hrel with ⟨trip, htrip, hbody⟩
  obtain ⟨skdmNodes, skdmFlag, skdmAudit⟩ := trip
  cases hpart : args.participant with
  | some p =>
    simp only [hpart] at hbody
    rcases Option.map_eq_some.mp hbody with ⟨enc, henc, hout⟩
    rw [← hout] at hpk ⊢
    dsimp only
    exact hasDeviceIdentity_finish _ _ _ _ _ _ _ _ _ _ (by simp)
  | none =>
    simp only [hpart] at hbody
    simp only [Option.some_inj] at hbody
    rw [← hbody] at hpk
    dsimp only at hpk
    have hflag : skdmFlag = true := by
      unfold groupCpn at htrip
      by_cases hmt : (groupSenderKey env args isStatus devices0).1.isEmpty = true
      · rw [if_pos hmt] at htrip
        simp only [Option.some_inj, Prod.mk.injEq] at htrip
        rw [← htrip.2.2] at hpk
        cases hpk
      · rw [if_neg hmt] at htrip
        exact createParticipantNodes_pkmsg_flag env _ _ _ _ _ _ _ htrip j CipherType.pkmsg
          hpk rfl
    rw [← hbody]
    dsimp only
    exact hasDeviceIdentity_finish _ _ _ _ _ _ _ _ _ _ (by simp [hflag])

theorem relayDirectBranch_pkmsg (env : RelayEnv) (jid : String) (message : IMessage)
    (args : RelayArgs) (isLid : Bool) (user destinationJid : String) (meMsg : IMessage)
    (devices0 : List DeviceWithJid) (addAttrs0 : List (String × String)) (out : RelayOut)
    (j : String)
    (hrel : relayDirectBranch env jid message args isLid user destinationJid meMsg devices0
      addAttrs0 (relayExtraAttrs message) = some out)
    (hpk : (j, CipherType.pkmsg) ∈ out.pairwise) :
    hasDeviceIdentity out.stanza = true := by
  unfold relayDirectBranch at hrel
  rcases Option.bind_eq_some.mp hrel with ⟨ownDec, _, h1⟩
  rcases Option.bind_eq_some.mp h1 with ⟨devices, _, h2⟩
  rcases Option.bind_eq_some.mp h2 with ⟨meDec, _, h3⟩
  rcases Option.bind_eq_some.mp h3 with ⟨meLidUser, _, h4⟩
  rcases Option.bind_eq_some.mp h4 with ⟨meTrip, hme, h5⟩
  rcases Option.bind_eq_some.mp h5 with ⟨otherTrip, hother, h6⟩
  simp only [Option.some_inj] at h6
  obtain ⟨meNodes, s1, aud1⟩ := meTrip
  obtain ⟨otherNodes, s2, aud2⟩ := otherTrip
  rw [← h6] at hpk
  dsimp only at hpk
  rw [← h6]
  dsimp only
  apply hasDeviceIdentity_finish
  rcases List.mem_append.mp hpk with h | h
  · have hs1 := createParticipantNodes_pkmsg_flag env _ _ _ _ _ _ _ hme j CipherType.pkmsg
      h rfl
    simp [hs1]
  · have hs2 := createParticipantNodes_pkmsg_flag env _ _ _ _ _ _ _ hother j CipherType.pkmsg
      h rfl
    simp [hs2]

/-- C3: if any pairwise encryption performed during a successful
`relayMessage` call returned a `pkmsg` ciphertext, the stanza handed to
`sendNode` carries a `<device-identity>` child. -/
theorem relay_pkmsg_device_identity (env : RelayEnv) (jid : String) (message : IMessage)
    (args : RelayArgs) (out : RelayOut) (j : String)
    (hrel : relayMessage env jid message args = some out)
    (hpk : (j, CipherType.pkmsg) ∈ out.pairwise) :
    hasDeviceIdentity out.stanza = true := by
  unfold relayMessage at hrel
  cases hd : jidDecode jid with
  | none =>
    rw [hd] at hrel
    exact absurd hrel (by simp)
  | some jdec =>
    rw [hd] at hrel
    dsimp only at hrel
    cases hdev : relayDevices0 args with
    | none =>
      rw [hdev] at hrel
      exact absurd hrel (by simp)
    | some devices0 =>
      rw [hdev] at hrel
      dsimp only at hrel
      by_cases hn : (jdec.server == "newsletter") = true
      · rw [if_pos hn] at hrel
        simp only [Option.some_inj] at hrel
        rw [← hrel] at hpk
        exact absurd hpk (by simp [newsletterStanza])
      · rw [if_neg hn] at hrel
        by_cases hg : (jdec.server == "g.us" || jid == "status@broadcast") = true
        · rw [if_pos hg] at hrel
          exact relayGroupBranch_pkmsg env jid message args _ _ devices0 _ out j hrel hpk
        · rw [if_neg hg] at hrel
          exact relayDirectBranch_pkmsg env jid message args _ _ _ _ devices0 _ out j hrel hpk

/-- Witness for C3 at a fresh-session direct send. -/
theorem relay_pkmsg_device_identity_witness :
    relayMessage c3Env "200@s.whatsapp.net" {} baseArgs = some c3OutW ∧
    ("200@s.whatsapp.net", CipherType.pkmsg) ∈ c3OutW.pairwise ∧
    hasDeviceIdentity c3OutW.stanza = true :=
  ⟨rfl, by decide,
    relay_pkmsg_device_identity c3Env "200@s.whatsapp.net" {} baseArgs c3OutW
      "200@s.whatsapp.net" rfl (by decide)⟩

/-! ## Claim C4 -/

theorem directSplitInv (env : RelayEnv) (mePnUser : String) (meLidUser : Option String) :
    ∀ (ds : List DeviceWithJid) (acc0 : List String × List String × List String),
      (∀ q : String, (q ∈ acc0.1 ∨ q ∈ acc0.2.1) →
        q ≠ env.meId ∧ ∀ l, meLidTruthy env = some l → q ≠ l) →
      ∀ q : String,
        (q ∈ (ds.foldl (fun (acc : List String × List String × List String) d =>
            let isExact := (d.jid == env.meId) ||
              (match meLidTruthy env with | some l => d.jid == l | none => false)
            if isExact then acc
            else
              let isMe := (d.user == mePnUser) ||
                (match meLidUser with | some u => d.user == u | none => false)
              if isMe then (acc.1 ++ [d.jid], acc.2.1, acc.2.2 ++ [d.jid])
              else (acc.1, acc.2.1 ++ [d.jid], acc.2.2 ++ [d.jid])) acc0).1 ∨
         q ∈ (ds.foldl (fun (acc : List String × List String × List String) d =>
            let isExact := (d.jid == env.meId) ||
              (match meLidTruthy env with | some l => d.jid == l | none => false)
            if isExact then acc
            else
              let isMe := (d.user == mePnUser) ||
                (match meLidUser with | some u => d.user == u | none => false)
              if isMe then (acc.1 ++ [d.jid], acc.2.1, acc.2.2 ++ [d.jid])
              else (acc.1, acc.2.1 ++ [d.jid], acc.2.2 ++ [d.jid])) acc0).2.1) →
        q ≠ env.meId ∧ ∀ l, meLidTruthy env = some l → q ≠ l := by
  intro ds
  induction ds with
  | nil =>
    intro acc0 hinv q hq
    exact hinv q hq
  | cons d rest ih =>
    intro acc0 hinv q hq
    rw [List.foldl_cons] at hq
    refine ih _ ?_ q hq
    intro r hr
    dsimp only at hr
    split at hr
    · exact hinv r hr
    · rename_i hex
      have hprop : d.jid ≠ env.meId ∧ ∀ l, meLidTruthy env = some l → d.jid ≠ l := by
        constructor
        · intro hc
          exact hex (by simp [hc])
        · intro l hl hc
          apply hex
          rw [hl]
          simp [hc]
      split at hr
      · dsimp only at hr
        rcases hr with hr | hr
        · rcases List.mem_append.mp hr with hr | hr
          · exact hinv r (Or.inl hr)
          · have hrd : r = d.jid := by simpa using hr
            rw [hrd]
            exact hprop
        · exact hinv r (Or.inr hr)
      · dsimp only at hr
        rcases hr with hr | hr
        · exact hinv r (Or.inl hr)
        · rcases List.mem_append.mp hr with hr | hr
          · exact hinv r (Or.inr hr)
          · have hrd : r = d.jid := by simpa using hr
            rw [hrd]
            exact hprop

theorem directSplit_no_self (env : RelayEnv) (mePnUser : String) (meLidUser : Option String)
    (devices : List DeviceWithJid) (j : String)
    (hj : j ∈ (directSplit env mePnUser meLidUser devices).1 ∨
          j ∈ (directSplit env mePnUser meLidUser devices).2.1) :
    j ≠ env.meId ∧ ∀ l, meLidTruthy env = some l → j ≠ l := by
  unfold directSplit at hj
  exact directSplitInv env mePnUser meLidUser devices ([], [], [])
    (fun q hq => by rcases hq with h | h <;> cases h) j hj

theorem createParticipantNodes_to_jids (env : RelayEnv) (js : List String)
    (message : IMessage) (extra : List (String × String)) (dsm : Option IMessage)
    (ns : List BinaryNode) (flag : Bool) (aud : List (String × CipherType))
    (h : createParticipantNodes env js message extra dsm = some (ns, flag, aud))
    (j : String)
    (hj : j ∈ ns.filterMap (fun n => if n.tag == "to" then getAttr n "jid" else none)) :
    j ∈ js ∧ j ≠ "" := by
  rcases List.mem_filterMap.mp hj with ⟨n, hn, hfn⟩
  obtain ⟨j2, hj2, hne, enc, henc, hneq⟩ := createParticipantNodes_sound env js message extra
    dsm ns flag aud h n hn
  rw [hneq] at hfn
  have hj2j : j2 = j := by
    simpa [mkParticipantToNode_tag, mkParticipantToNode_jid] using hfn
  rw [← hj2j]
  exact ⟨hj2, hne⟩

theorem cpn_child_tags (env : RelayEnv) (js : List String) (message : IMessage)
    (extra : List (String × String)) (dsm : Option IMessage) (ns : List BinaryNode)
    (flag : Bool) (aud : List (String × CipherType))
    (h : createParticipantNodes env js message extra dsm = some (ns, flag, aud)) :
    ∀ n ∈ ns, ∀ c ∈ n.childNodes, c.tag = "enc" := by
  intro n hn c hc
  obtain ⟨j, _, _, enc, _, hneq⟩ := createParticipantNodes_sound env js message extra dsm
    ns flag aud h n hn
  rw [hneq, mkParticipantToNode_children] at hc
  have hce : c = BinaryNode.node "enc" (mergeAttrs [("v", "2"), ("type", enc.ctype.str)] extra)
      (BNContent.bytes enc.ciphertext) := by simpa using hc
  rw [hce]
  rfl

theorem peerLift_not_participants (pNodes : List BinaryNode)
    (hchildT : ∀ n ∈ pNodes, ∀ c ∈ n.childNodes, c.tag ≠ "participants") :
    ∀ m ∈ peerLift pNodes, m.tag ≠ "participants" := by
  intro m hm
  cases pNodes with
  | nil => exact absurd hm (by simp [peerLift])
  | cons pn rest =>
    unfold peerLift at hm
    dsimp only at hm
    cases hc : pn.childNodes with
    | nil =>
      rw [hc] at hm
      exact absurd hm (by simp)
    | cons c crest =>
      rw [hc] at hm
      have hmc : m = c := by simpa using hm
      rw [hmc]
      exact hchildT pn (List.mem_cons_self _ _) c (by rw [hc]; exact List.mem_cons_self _ _)

/-- Every participant JID of a finished stanza is a `jid` attribute of
one of the given `<to>` nodes, for any category. -/
theorem stanzaParticipantJids_finish_sub (env : RelayEnv) (message : IMessage)
    (dest : String) (part : Option RetryParticipant) (msgId : String)
    (addAttrs : List (String × String)) (addNodes : List BinaryNode)
    (encContent : List BinaryNode) (pNodes : List BinaryNode) (flag : Bool)
    (hEncT : ∀ n ∈ encContent, n.tag ≠ "participants")
    (hAddP : ∀ n ∈ addNodes, n.tag ≠ "participants")
    (hchildT : ∀ n ∈ pNodes, ∀ c ∈ n.childNodes, c.tag ≠ "participants")
    (j : String)
    (hj : j ∈ stanzaParticipantJids
      (finishStanza env message dest part msgId addAttrs addNodes encContent pNodes flag)) :
    j ∈ pNodes.filterMap (fun n => if n.tag == "to" then getAttr n "jid" else none) := by
  by_cases hpeer : (lookupStr addAttrs "category" == some "peer") = true
  · unfold stanzaParticipantJids at hj
    rw [finishStanza_childNodes] at hj
    simp only [List.filter_append] at hj
    rw [filter_tag_nil encContent _ hEncT, filter_tag_nil addNodes _ hAddP,
      filter_tag_nil (identitySeg env flag) _
        (fun n hn => by rw [identitySeg_tags env flag n hn]; decide),
      filter_tag_nil (bizSeg message) _
        (fun n hn => by rw [bizSeg_tags message n hn]; decide)] at hj
    unfold wrappedParticipants at hj
    by_cases hmt : pNodes.isEmpty = true
    · rw [if_pos hmt] at hj
      exact absurd hj (by simp)
    · rw [if_neg hmt, if_pos hpeer] at hj
      rw [filter_tag_nil (peerLift pNodes) _ (peerLift_not_participants pNodes hchildT)] at hj
      exact absurd hj (by simp)
  · rw [stanzaParticipantJids_finish env message dest part msgId addAttrs addNodes encContent
      pNodes flag hEncT hAddP (by simpa using hpeer)] at hj
    exact hj

theorem relayDirectBranch_no_self (env : RelayEnv) (jid : String) (message : IMessage)
    (args : RelayArgs) (isLid : Bool) (user destinationJid : String) (meMsg : IMessage)
    (devices0 : List DeviceWithJid) (addAttrs0 : List (String × String)) (out : RelayOut)
    (j : String)
    (hAddP : ∀ n ∈ args.additionalNodes, n.tag ≠ "participants")
    (hrel : relayDirectBranch env jid message args isLid user destinationJid meMsg devices0
      addAttrs0 (relayExtraAttrs message) = some out)
    (hj : j ∈ stanzaParticipantJids out.stanza) :
    j ≠ env.meId ∧ ∀ l, env.meLid = some l → j ≠ l := by
  unfold relayDirectBranch at hrel
  rcases Option.bind_eq_some.mp hrel with ⟨ownDec, _, h1⟩
  rcases Option.bind_eq_some.mp h1 with ⟨devices, _, h2⟩
  rcases Option.bind_eq_some.mp h2 with ⟨meDec, _, h3⟩
  rcases Option.bind_eq_some.mp h3 with ⟨meLidUser, _, h4⟩
  rcases Option.bind_eq_some.mp h4 with ⟨meTrip, hme, h5⟩
  rcases Option.bind_eq_some.mp h5 with ⟨otherTrip, hother, h6⟩
  simp only [Option.some_inj] at h6
  obtain ⟨meNodes, s1, aud1⟩ := meTrip
  obtain ⟨otherNodes, s2, aud2⟩ := otherTrip
  rw [← h6] at hj
  dsimp only at hj
  have hchildT : ∀ n ∈ meNodes ++ otherNodes, ∀ c ∈ n.childNodes, c.tag ≠ "participants" := by
    intro n hn c hc
    rcases List.mem_append.mp hn with h | h
    · rw [cpn_child_tags env _ _ _ _ _ _ _ hme n h c hc]
      decide
    · rw [cpn_child_tags env _ _ _ _ _ _ _ hother n h c hc]
      decide
  have hsub := stanzaParticipantJids_finish_sub env message destinationJid args.participant
    args.messageId addAttrs0 args.additionalNodes [] (meNodes ++ otherNodes) _
    (by intro n hn; cases hn) hAddP hchildT j hj
  rw [List.filterMap_append] at hsub
  have hjin : (j ∈ (directSplit env meDec.user meLidUser devices).1 ∨
      j ∈ (directSplit env meDec.user meLidUser devices).2.1) ∧ j ≠ "" := by
    rcases List.mem_append.mp hsub with h | h
    · have hh := createParticipantNodes_to_jids env _ _ _ _ _ _ _ hme j h
      exact ⟨Or.inl hh.1, hh.2⟩
    · have hh := createParticipantNodes_to_jids env _ _ _ _ _ _ _ hother j h
      exact ⟨Or.inr hh.1, hh.2⟩
  have hmain := directSplit_no_self env meDec.user meLidUser devices j hjin.1
  refine ⟨hmain.1, ?_⟩
  intro l hl
  by_cases hle : l = ""
  · rw [hle]
    intro hc
    exact hjin.2 hc
  · have hmlt : meLidTruthy env = some l := by
      unfold meLidTruthy
      rw [hl]
      dsimp only
      rw [if_pos (by simp [hle])]
    exact hmain.2 l hmlt

/-- C4: a successful direct (non-group, non-status, non-newsletter)
`relayMessage` call never addresses a `<to>` envelope to the sender's
own exact device JID, neither the authenticated `meId` nor the `meLid`. -/
theorem relay_direct_no_self_to (env : RelayEnv) (jid : String) (message : IMessage)
    (args : RelayArgs) (jdec : FullJid) (out : RelayOut) (j : String)
    (hd : jidDecode jid = some jdec)
    (hng : isJidGroup jid = false)
    (hns : (jid == "status@broadcast") = false)
    (hnl : jdec.server ≠ "newsletter")
    (hAddP : ∀ n ∈ args.additionalNodes, n.tag ≠ "participants")
    (hrel : relayMessage env jid message args = some out)
    (hj : j ∈ stanzaParticipantJids out.stanza) :
    j ≠ env.meId ∧ ∀ l, env.meLid = some l → j ≠ l := by
  have hg : (jdec.server == "g.us" || jid == "status@broadcast") = false := by
    rw [← isJidGroup_eq jid jdec hd, hng, hns]
    rfl
  unfold relayMessage at hrel
  rw [hd] at hrel
  dsimp only at hrel
  cases hdev : relayDevices0 args with
  | none =>
    rw [hdev] at hrel
    exact absurd hrel (by simp)
  | some devices0 =>
    rw [hdev] at hrel
    dsimp only at hrel
    rw [if_neg (by simp [hnl]), if_neg (by simp [hg])] at hrel
    exact relayDirectBranch_no_self env jid message args _ _ _ _ devices0 _ out j hAddP
      hrel hj

/-- Witness for C4 at a concrete direct send. -/
theorem relay_direct_no_self_to_witness :
    relayMessage baseEnv "200@s.whatsapp.net" {} baseArgs = some c4OutW ∧
    "200@s.whatsapp.net" ∈ stanzaParticipantJids c4OutW.stanza ∧
    ("200@s.whatsapp.net" ≠ baseEnv.meId ∧
      ∀ l, baseEnv.meLid = some l → "200@s.whatsapp.net" ≠ l) :=
  ⟨rfl, by decide,
    relay_direct_no_self_to baseEnv "200@s.whatsapp.net" {} baseArgs
      ⟨"200", "s.whatsapp.net", none⟩ c4OutW "200@s.whatsapp.net" rfl rfl rfl (by decide)
      (by intro n hn; simp [baseArgs] at hn) rfl (by decide)⟩

/-! ## Claim C5 -/

theorem identitySeg_enc_filter (env : RelayEnv) (flag : Bool) :
    (identitySeg env flag).filter (fun c => c.tag == "enc") = [] :=
  filter_tag_nil _ _ (fun n hn => by rw [identitySeg_tags env flag n hn]; decide)

theorem identitySeg_part_filter (env : RelayEnv) (flag : Bool) :
    (identitySeg env flag).filter (fun c => c.tag == "participants") = [] :=
  filter_tag_nil _ _ (fun n hn => by rw [identitySeg_tags env flag n hn]; decide)

theorem bizSeg_enc_filter (message : IMessage) :
    (bizSeg message).filter (fun c => c.tag == "enc") = [] :=
  filter_tag_nil _ _ (fun n hn => by rw [bizSeg_tags message n hn]; decide)

theorem bizSeg_part_filter (message : IMessage) :
    (bizSeg message).filter (fun c => c.tag == "participants") = [] :=
  filter_tag_nil _ _ (fun n hn => by rw [bizSeg_tags message n hn]; decide)

theorem wrappedParticipants_enc_filter (addAttrs : List (String × String))
    (pNodes : List BinaryNode)
    (hpeer : (lookupStr addAttrs "category" == some "peer") = false) :
    (wrappedParticipants addAttrs pNodes).filter (fun c => c.tag == "enc") = [] := by
  unfold wrappedParticipants
  by_cases hmt : pNodes.isEmpty = true
  · rw [if_pos hmt]
    rfl
  · rw [if_neg hmt, if_neg (by simp [hpeer])]
    rfl

theorem peerLift_mem (pNodes : List BinaryNode) (m : BinaryNode)
    (hm : m ∈ peerLift pNodes) : ∃ pn ∈ pNodes, m ∈ pn.childNodes := by
  cases pNodes with
  | nil => exact absurd hm (by simp [peerLift])
  | cons pn rest =>
    unfold peerLift at hm
    dsimp only at hm
    cases hc : pn.childNodes with
    | nil =>
      rw [hc] at hm
      exact absurd hm (by simp)
    | cons c crest =>
      rw [hc] at hm
      have hmc : m = c := by simpa using hm
      exact ⟨pn, List.mem_cons_self _ _, by rw [hmc, hc]; exact List.mem_cons_self _ _⟩

theorem wrapped_enc_count (addAttrs : List (String × String)) (pNodes : List BinaryNode)
    (hchild : ∀ m ∈ pNodes, ∀ c ∈ m.childNodes, getAttr c "count" = none)
    (n : BinaryNode)
    (hn : n ∈ (wrappedParticipants addAttrs pNodes).filter (fun c => c.tag == "enc")) :
    getAttr n "count" = none := by
  rw [List.mem_filter] at hn
  obtain ⟨hmem, htag⟩ := hn
  unfold wrappedParticipants at hmem
  by_cases hmt : pNodes.isEmpty = true
  · rw [if_pos hmt] at hmem
    cases hmem
  · rw [if_neg hmt] at hmem
    by_cases hpeer : (lookupStr addAttrs "category" == some "peer") = true
    · rw [if_pos hpeer] at hmem
      rcases peerLift_mem pNodes n hmem with ⟨pn, hpn, hnpn⟩
      exact hchild pn hpn n hnpn
    · rw [if_neg hpeer] at hmem
      have hne : n = BinaryNode.node "participants" [] (BNContent.children pNodes) := by
        simpa using hmem
      rw [hne] at htag
      exact absurd htag (by simp)

theorem wrapped_part_mem (addAttrs : List (String × String)) (pNodes : List BinaryNode)
    (hchildT : ∀ m ∈ pNodes, ∀ c ∈ m.childNodes, c.tag ≠ "participants")
    (w : BinaryNode)
    (hw : w ∈ (wrappedParticipants addAttrs pNodes).filter
      (fun c => c.tag == "participants")) :
    w.childNodes = pNodes := by
  rw [List.mem_filter] at hw
  obtain ⟨hmem, htag⟩ := hw
  unfold wrappedParticipants at hmem
  by_cases hmt : pNodes.isEmpty = true
  · rw [if_pos hmt] at hmem
    cases hmem
  · rw [if_neg hmt] at hmem
    by_cases hpeer : (lookupStr addAttrs "category" == some "peer") = true
    · rw [if_pos hpeer] at hmem
      rcases peerLift_mem pNodes w hmem with ⟨pn, hpn, hwpn⟩
      exact absurd (by simpa using htag) (hchildT pn hpn w hwpn)
    · rw [if_neg hpeer] at hmem
      have hwe : w = BinaryNode.node "participants" [] (BNContent.children pNodes) := by
        simpa using hmem
      rw [hwe]
      rfl

theorem cpn_child_count_none (env : RelayEnv) (js : List String) (message : IMessage)
    (extra : List (String × String)) (dsm : Option IMessage) (ns : List BinaryNode)
    (flag : Bool) (aud : List (String × CipherType))
    (hextra : ∀ p ∈ extra, p.1 ≠ "count")
    (h : createParticipantNodes env js message extra dsm = some (ns, flag, aud)) :
    ∀ n ∈ ns, ∀ c ∈ n.childNodes, getAttr c "count" = none := by
  intro n hn c hc
  obtain ⟨j, _, _, enc, _, hneq⟩ := createParticipantNodes_sound env js message extra dsm
    ns flag aud h n hn
  rw [hneq, mkParticipantToNode_children] at hc
  have hce : c = BinaryNode.node "enc" (mergeAttrs [("v", "2"), ("type", enc.ctype.str)] extra)
      (BNContent.bytes enc.ciphertext) := by simpa using hc
  rw [hce]
  unfold getAttr
  simp only [attrs_node]
  exact enc_merge_count enc.ctype.str extra hextra

/-- In a finished stanza with no directly attached `<enc>` content and
inert additional nodes, every `<enc>` node (lifted or nested) carries no
`count` attribute when the `<to>` envelopes' children carry none. -/
theorem finishStanza_enc_count_none (env : RelayEnv) (message : IMessage) (dest : String)
    (part : Option RetryParticipant) (msgId : String) (addAttrs : List (String × String))
    (addNodes : List BinaryNode) (pNodes : List BinaryNode) (flag : Bool)
    (hAddE : ∀ n ∈ addNodes, n.tag ≠ "enc")
    (hAddP : ∀ n ∈ addNodes, n.tag ≠ "participants")
    (hchild : ∀ m ∈ pNodes, ∀ c ∈ m.childNodes, getAttr c "count" = none)
    (hchildT : ∀ m ∈ pNodes, ∀ c ∈ m.childNodes, c.tag ≠ "participants") :
    ∀ n ∈ stanzaEncNodes (finishStanza env message dest part msgId addAttrs addNodes []
      pNodes flag), getAttr n "count" = none := by
  intro n hn
  unfold stanzaEncNodes at hn
  rw [finishStanza_childNodes] at hn
  simp only [List.filter_append, List.nil_append, List.filter_nil] at hn
  rw [identitySeg_enc_filter, bizSeg_enc_filter, filter_tag_nil addNodes _ hAddE,
    identitySeg_part_filter, bizSeg_part_filter, filter_tag_nil addNodes _ hAddP] at hn
  simp only [List.append_nil, List.nil_append] at hn
  rcases List.mem_append.mp hn with hdir | hnest
  · exact wrapped_enc_count addAttrs pNodes hchild n hdir
  · rcases List.mem_flatMap.mp hnest with ⟨t, ht, hnt⟩
    rcases List.mem_flatMap.mp ht with ⟨w, hw, htw⟩
    have hwp := wrapped_part_mem addAttrs pNodes hchildT w hw
    rw [hwp] at htw
    rw [List.mem_filter] at hnt
    exact hchild t htw n hnt.1

theorem relayGroupBranch_retry_routing (env : RelayEnv) (jid : String) (message : IMessage)
    (args : RelayArgs) (p : RetryParticipant) (isStatus : Bool)
    (devices0 : List DeviceWithJid) (addAttrs0 : List (String × String)) (out : RelayOut)
    (hp : args.participant = some p)
    (hAdd : ∀ n ∈ args.additionalNodes, n.tag ≠ "enc")
    (hpeerg : (lookupStr (groupAttrs env args isStatus addAttrs0) "category"
      == some "peer") = false)
    (hgj : isJidGroup jid = true)
    (hrel : relayGroupBranch env jid message args isStatus jid devices0 addAttrs0
      (relayExtraAttrs message) = some out) :
    lookupStr out.stanza.attrs "to" = some jid ∧
    lookupStr out.stanza.attrs "participant" = some p.jid ∧
    (out.stanza.childNodes.filter (fun c => c.tag == "enc")).map (fun n => getAttr n "count")
      = [some (toString p.count)] := by
  unfold relayGroupBranch at hrel
  rcases Option.bind_eq_some.mp hrel with ⟨trip, htrip, hbody⟩
  obtain ⟨skdmNodes, skdmFlag, skdmAudit⟩ := trip
  simp only [hp] at hbody
  rcases Option.map_eq_some.mp hbody with ⟨enc, henc, hout⟩
  rw [← hout]
  dsimp only
  refine ⟨?_, ?_, ?_⟩
  · rw [finishStanza_attrs]
    unfold relayStanzaAttrs
    dsimp only
    rw [if_pos hgj]
    rw [lookupStr_setStr_ne _ _ _ _ (by decide)]
    exact lookupStr_setStr_self _ _ _
  · rw [finishStanza_attrs]
    unfold relayStanzaAttrs
    dsimp only
    rw [if_pos hgj]
    exact lookupStr_setStr_self _ _ _
  · rw [finishStanza_childNodes]
    simp only [List.filter_append]
    rw [wrappedParticipants_enc_filter _ _ hpeerg, identitySeg_enc_filter, bizSeg_enc_filter,
      filter_tag_nil args.additionalNodes _ hAdd]
    have hcount : getAttr (BinaryNode.node "enc"
        [("v", "2"), ("type", enc.ctype.str), ("count", toString p.count)]
        (BNContent.bytes enc.ciphertext)) "count" = some (toString p.count) := by
      unfold getAttr
      simp only [attrs_node]
      rw [lookupStr_cons_neg _ _ _ (by simp), lookupStr_cons_neg _ _ _ (by simp)]
      exact lookupStr_cons_pos _ _ _ rfl
    simp [hcount]

theorem relayDirectBranch_retry_routing (env : RelayEnv) (jid : String) (message : IMessage)
    (args : RelayArgs) (p : RetryParticipant) (isLid : Bool) (user : String)
    (meMsg : IMessage) (devices0 : List DeviceWithJid) (addAttrs0 : List (String × String))
    (out : RelayOut)
    (hp : args.participant = some p)
    (hAdd : ∀ n ∈ args.additionalNodes, n.tag ≠ "enc")
    (hAddP : ∀ n ∈ args.additionalNodes, n.tag ≠ "participants")
    (hgj : isJidGroup jid = false)
    (hrel : relayDirectBranch env jid message args isLid user jid meMsg devices0 addAttrs0
      (relayExtraAttrs message) = some out) :
    (if areJidsSameUser p.jid env.meId then
        lookupStr out.stanza.attrs "to" = some p.jid ∧
        lookupStr out.stanza.attrs "recipient" = some jid
      else lookupStr out.stanza.attrs "to" = some p.jid) ∧
    ∀ n ∈ stanzaEncNodes out.stanza, getAttr n "count" = none := by
  unfold relayDirectBranch at hrel
  rcases Option.bind_eq_some.mp hrel with ⟨ownDec, _, h1⟩
  rcases Option.bind_eq_some.mp h1 with ⟨devices, _, h2⟩
  rcases Option.bind_eq_some.mp h2 with ⟨meDec, _, h3⟩
  rcases Option.bind_eq_some.mp h3 with ⟨meLidUser, _, h4⟩
  rcases Option.bind_eq_some.mp h4 with ⟨meTrip, hme, h5⟩
  rcases Option.bind_eq_some.mp h5 with ⟨otherTrip, hother, h6⟩
  simp only [Option.some_inj] at h6
  obtain ⟨meNodes, s1, aud1⟩ := meTrip
  obtain ⟨otherNodes, s2, aud2⟩ := otherTrip
  rw [← h6]
  dsimp only
  constructor
  · rw [finishStanza_attrs]
    unfold relayStanzaAttrs
    rw [hp]
    dsimp only
    rw [if_neg (show ¬(isJidGroup jid = true) from by simp [hgj])]
    by_cases hsame : areJidsSameUser p.jid env.meId = true
    · rw [if_pos hsame, if_pos hsame]
      constructor
      · rw [lookupStr_setStr_ne _ _ _ _ (by decide)]
        exact lookupStr_setStr_self _ _ _
      · exact lookupStr_setStr_self _ _ _
    · rw [if_neg hsame, if_neg hsame]
      exact lookupStr_setStr_self _ _ _
  · have hchild : ∀ m ∈ meNodes ++ otherNodes, ∀ c ∈ m.childNodes,
        getAttr c "count" = none := by
      intro m hm
      rcases List.mem_append.mp hm with h | h
      · exact cpn_child_count_none env _ _ _ _ _ _ _ (relayExtraAttrs_no_count message) hme m h
      · exact cpn_child_count_none env _ _ _ _ _ _ _ (relayExtraAttrs_no_count message)
          hother m h
    have hchildT : ∀ m ∈ meNodes ++ otherNodes, ∀ c ∈ m.childNodes,
        c.tag ≠ "participants" := by
      intro m hm c hc
      rcases List.mem_append.mp hm with h | h
      · rw [cpn_child_tags env _ _ _ _ _ _ _ hme m h c hc]
        decide
      · rw [cpn_child_tags env _ _ _ _ _ _ _ hother m h c hc]
        decide
    exact finishStanza_enc_count_none env message jid args.participant args.messageId
      addAttrs0 args.additionalNodes (meNodes ++ otherNodes) _ hAdd hAddP hchild hchildT

/-- C5 counterexample: a successful retry relay to a non-group (1:1)
destination produces a stanza whose single `<enc>` node carries no
`count` attribute at all, refuting the claim's final conjunct that the
`<enc>` child carries `count = participant.count` for every destination
kind. -/
theorem relay_retry_routing_cex :
    retryArgsDirect.participant = some ⟨"200@s.whatsapp.net", 2⟩ ∧
    isJidGroup "200@s.whatsapp.net" = false ∧
    (relayMessage baseEnv "200@s.whatsapp.net" {} retryArgsDirect).map
      (fun o => (stanzaEncNodes o.stanza).map (fun n => getAttr n "count")) = some [none] :=
  ⟨rfl, rfl, rfl⟩

/-- C5 (amended): with an explicit retry participant and a non-status,
non-newsletter destination, the stanza routing is as claimed (group:
`to` = group JID and `participant` = participant.jid; own-user
non-group: `to` = participant.jid and `recipient` = destination JID;
other non-group: `to` = participant.jid), but the retry count rides on
the directly attached `<enc>` only for group destinations; in the
non-group case no `<enc>` node of the stanza carries a `count` attribute
at all. -/
theorem relay_retry_routing (env : RelayEnv) (jid : String) (message : IMessage)
    (args : RelayArgs) (p : RetryParticipant) (jdec : FullJid) (out : RelayOut)
    (hp : args.participant = some p)
    (hd : jidDecode jid = some jdec)
    (hnl : jdec.server ≠ "newsletter")
    (hns : (jid == "status@broadcast") = false)
    (hpeer : (lookupStr args.additionalAttributes "category" == some "peer") = false)
    (hAdd : ∀ n ∈ args.additionalNodes, n.tag ≠ "enc")
    (hAddP : ∀ n ∈ args.additionalNodes, n.tag ≠ "participants")
    (hrel : relayMessage env jid message args = some out) :
    (if isJidGroup jid then
        lookupStr out.stanza.attrs "to" = some jid ∧
        lookupStr out.stanza.attrs "participant" = some p.jid
      else if areJidsSameUser p.jid env.meId then
        lookupStr out.stanza.attrs "to" = some p.jid ∧
        lookupStr out.stanza.attrs "recipient" = some jid
      else lookupStr out.stanza.attrs "to" = some p.jid) ∧
    (if isJidGroup jid then
        (out.stanza.childNodes.filter (fun c => c.tag == "enc")).map
          (fun n => getAttr n "count") = [some (toString p.count)]
      else ∀ n ∈ stanzaEncNodes out.stanza, getAttr n "count" = none) := by
  unfold relayMessage at hrel
  rw [hd] at hrel
  dsimp only at hrel
  cases hdev : relayDevices0 args with
  | none =>
    rw [hdev] at hrel
    exact absurd hrel (by simp)
  | some devices0 =>
    rw [hdev] at hrel
    dsimp only at hrel
    rw [if_neg (by simp [hnl])] at hrel
    rw [show (if !(jid == "status@broadcast") then jid else "status@broadcast") = jid from
      by rw [hns]; rfl] at hrel
    by_cases hgs : (jdec.server == "g.us") = true
    · rw [if_pos (by simp [hgs])] at hrel
      have hgj : isJidGroup jid = true := by
        rw [isJidGroup_eq jid jdec hd]
        exact hgs
      have hpeerg : (lookupStr (groupAttrs env args (jid == "status@broadcast")
          (relayAdditionalAttributes args (jdec.server == "g.us") (jid == "status@broadcast")))
          "category" == some "peer") = false := by
        rw [groupAttrs_category, relayAdditionalAttributes_category]
        exact hpeer
      have hmain := relayGroupBranch_retry_routing env jid message args p _ devices0 _ out
        hp hAdd hpeerg hgj hrel
      rw [hgj]
      rw [if_pos rfl, if_pos rfl]
      exact ⟨⟨hmain.1, hmain.2.1⟩, hmain.2.2⟩
    · rw [if_neg (by simp [hgs, hns])] at hrel
      have hgj : isJidGroup jid = false := by
        rw [isJidGroup_eq jid jdec hd]
        simpa using hgs
      have hmain := relayDirectBranch_retry_routing env jid message args p _ _ _ devices0 _
        out hp hAdd hAddP hgj hrel
      rw [hgj]
      rw [if_neg (show ¬(false = true) from by simp),
        if_neg (show ¬(false = true) from by simp)]
      exact hmain

/-- Witness for C5 at a concrete group retry. -/
theorem relay_retry_routing_witness :
    relayMessage baseEnv "g1@g.us" {} retryArgsGroup = some c5OutW ∧
    ((if isJidGroup "g1@g.us" then
        lookupStr c5OutW.stanza.attrs "to" = some "g1@g.us" ∧
        lookupStr c5OutW.stanza.attrs "participant" = some "200@s.whatsapp.net:1"
      else if areJidsSameUser "200@s.whatsapp.net:1" baseEnv.meId then
        lookupStr c5OutW.stanza.attrs "to" = some "200@s.whatsapp.net:1" ∧
        lookupStr c5OutW.stanza.attrs "recipient" = some "g1@g.us"
      else lookupStr c5OutW.stanza.attrs "to" = some "200@s.whatsapp.net:1") ∧
     (if isJidGroup "g1@g.us" then
        (c5OutW.stanza.childNodes.filter (fun c => c.tag == "enc")).map
          (fun n => getAttr n "count") = [some "2"]
      else ∀ n ∈ stanzaEncNodes c5OutW.stanza, getAttr n "count" = none)) :=
  ⟨rfl,
    relay_retry_routing baseEnv "g1@g.us" {} retryArgsGroup ⟨"200@s.whatsapp.net:1", 2⟩
      ⟨"g1", "g.us", none⟩ c5OutW rfl rfl (by decide) rfl rfl
      (by intro n hn; simp [retryArgsGroup, baseArgs] at hn)
      (by intro n hn; simp [retryArgsGroup, baseArgs] at hn) rfl⟩

end DigiSocket
